import Mathlib

/-!
# NS3Netsim, the ns-3 side of the Mosaik co-simulation adapter

A shallow embedding of `NS3Mosaik/mosaik_api/src/NS3Netsim.cpp`.

The adapter object and the two globals it shares with the receive handler
(`dataXchgOutput`, `mapIpv4NodeId`) are one record, `NS3Netsim`; every member
function is a function on that record.  A call that ends the process
(`NS_FATAL_ERROR`, an exception nobody catches, a null pointer that is
dereferenced) returns `Except.error` with the reason and the record as it was
at that moment; a call that returns gives `Except.ok`.

What the wrapped engine does is kept to what the adapter can observe:

* a node is named by its string, as `init` registered it; `Names::Find` gives
  the node registered under exactly that string and the null pointer for any
  other string (the path forms of the name service, `/Names/...`, are not
  modelled);
* a node has an interface 1 when a link ends on it: interface 0 is the
  loopback and `init` adds one interface for each end of a link;
* `helper.Install (name)` makes one application, described by its class, the
  node it sits on and the socket address put in its `Local` or `Remote`
  attribute, and adds it at the end of that node's application list; on a
  name without a node it goes through the null pointer;
* `std::stod` is floating-point parsing and is a parameter of `init`: for a
  string it returns or throws one of its two exceptions;
* `std::vector::push_back` is `l ++ [x]`, `back`/`pop_back` work at that end,
  `front` is the head;
* a `std::string` is a `String` (a packet buffer a `List Char`), one `Char`
  for each byte, and `long long` is an `Int` checked against the 64-bit range
  where the library checks it (`stoll`).

Logging and printing do not change the record and are left out.
-/

namespace NS3Mosaik

/-! ## Data model -/

/-- An IPv4 address, as far as the adapter tells addresses apart. -/
inductive Ipv4Address where
  /-- The result of `Ipv4Address::GetAny ()`. -/
  | any
  /-- The result of `GetObject<Ipv4> ()->GetAddress (interface, 0).GetLocal ()`
  on the node of that name. -/
  | iface (node : String) (interface : Nat)
  deriving DecidableEq

/-- The pair of address and port, `InetSocketAddress (ipv4, port)`. -/
structure InetSocketAddress where
  ipv4 : Ipv4Address
  port : Nat
  deriving DecidableEq

/-- The four application classes the helpers of the adapter install. -/
inductive AppClass where
  | MultiClientTcpServer
  | CustomUdpServer
  | TcpClient
  | CustomUdpClient
  deriving DecidableEq

/-- One installed application: its class, the node the helper installed it on
and the value of its `Local` (server) or `Remote` (client) attribute. -/
structure Application where
  cls : AppClass
  node : String
  address : InetSocketAddress
  deriving DecidableEq

/-- The record `DataXCHG` of one received message. -/
structure DataXCHG where
  src : String
  dst : String
  val : String
  time : Int
  deriving DecidableEq

/-- The adapter object together with the globals it works on. -/
structure NS3Netsim where
  linkCount : Nat
  sinkPort : Nat
  verbose : Int
  tcpOrUdp : String
  LinkRate : String
  LinkDelay : String
  LinkErrorRate : String
  /-- The container `nodes`: the name of each node, the empty string for a node
  without a name. -/
  nodes : List String
  /-- The list `p2pDevices`: for each link the indices of its two nodes. -/
  p2pDevices : List (Nat × Nat)
  arrayAppConnections : List (List String)
  nodeServerList : List String
  allApplications : List Application
  /-- The application lists of all nodes, merged in order of installation: the
  list of one node is the sublist of the entries on that node. -/
  installed : List Application
  /-- The global output queue `dataXchgOutput`. -/
  dataXchgOutput : List DataXCHG
  /-- The global `mapIpv4NodeId`, a `std::map` from address to node id. -/
  mapIpv4NodeId : List (Ipv4Address × Nat)
  /-- The calls of `ScheduleTransmit (val, val_time)` made so far, each with the
  application it was made on. -/
  transmits : List (Application × String × String)
  deriving DecidableEq

/-- The ways a call ends the process. -/
inductive Abort where
  /-- `NS_FATAL_ERROR` of `init`: the two sizes that differ. -/
  | sizeMismatch (coordLines matrixRows : Nat)
  /-- `NS_FATAL_ERROR ("Invalid protocol passed in")` of `setUpServer`. -/
  | invalidProtocolServer
  /-- `NS_FATAL_ERROR ("Invalid protocol passed in")` of `setUpClient`. -/
  | invalidProtocolClient
  /-- `schedule` found no client application and calls through a null pointer. -/
  | nullClientApp
  /-- `std::invalid_argument` thrown by `stoll`. -/
  | stollInvalidArgument
  /-- `std::out_of_range` thrown by `stoll`. -/
  | stollOutOfRange
  /-- `std::out_of_range` thrown by `substr`. -/
  | substrOutOfRange
  /-- The null pointer `Names::Find` gives for a name without a node is
  dereferenced. -/
  | nullNode
  /-- The call `GetAddress (1,0)` on a node that has no interface 1. -/
  | noInterface
  /-- The call `Names::Add` fails and aborts. -/
  | namesAddFailed
  /-- The call `nodes.Get (k)` with `k` beyond the nodes of the container. -/
  | nodeIndexOutOfRange
  /-- `std::invalid_argument` thrown by `stod`. -/
  | stodInvalidArgument
  /-- `std::out_of_range` thrown by `stod`. -/
  | stodOutOfRange
  deriving DecidableEq

/-- The outcome of a call: the record after it, or the reason the process ended
with the record at that moment. -/
abbrev Result := Except (Abort × NS3Netsim) NS3Netsim

/-- The constructor `NS3Netsim::NS3Netsim ()`: counters zero, containers empty. -/
def NS3Netsim.new : NS3Netsim where
  linkCount := 0
  sinkPort := 0
  verbose := 0
  tcpOrUdp := ""
  LinkRate := ""
  LinkDelay := ""
  LinkErrorRate := ""
  nodes := []
  p2pDevices := []
  arrayAppConnections := []
  nodeServerList := []
  allApplications := []
  installed := []
  dataXchgOutput := []
  mapIpv4NodeId := []
  transmits := []

/-! ## Library functions the adapter calls -/

/-- The order `a <= b` of `std::string`: lexicographic on the bytes. -/
def stringLe : List Char → List Char → Bool
  | [], _ => true
  | _ :: _, [] => false
  | a :: as, b :: bs =>
    if a.toNat < b.toNat then true
    else if b.toNat < a.toNat then false
    else stringLe as bs

/-- The call `sort (v.begin (), v.end ())` on a vector of strings.  The order is
total and two strings that compare equal are the same string, so the sorted
vector does not depend on the algorithm. -/
def sort (v : List String) : List String :=
  v.insertionSort (fun a b => stringLe a.data b.data = true)

/-- The call `unique (v.begin (), v.end ())` followed by the `resize`: of each
run of equal neighbours the first is kept. -/
def unique : List String → List String
  | [] => []
  | [a] => [a]
  | a :: b :: rest => if a = b then unique (b :: rest) else a :: unique (b :: rest)

/-! ## create, setUpServer, setUpClient -/

/-- The search loop of `create`: is there a record whose `front ()` is the
client and whose `back ()` is the server.  A record is never empty, `create`
writes two strings into each; an empty one matches no pair here. -/
def connectionExists (conns : List (List String)) (client server : String) : Bool :=
  conns.any (fun rec => rec.head? = some client ∧ rec.getLast? = some server)

/-- Is the application a server application. -/
def Application.isServer (a : Application) : Bool :=
  a.cls = AppClass.MultiClientTcpServer ∨ a.cls = AppClass.CustomUdpServer

/-- Is the application a client application. -/
def Application.isClient (a : Application) : Bool :=
  a.cls = AppClass.TcpClient ∨ a.cls = AppClass.CustomUdpClient

/-- The name service on the names of the node container: the index of the node
registered under the name, nothing when no node has it.  The empty string is
the mark of a node without a name and is no name. -/
def NamesFind (nodes : List String) (name : String) : Option Nat :=
  if name ≠ "" ∧ name ∈ nodes then some (nodes.indexOf name) else none

/-- Does a link of the list end on node `i`. -/
def linkEndsOn (p2pDevices : List (Nat × Nat)) (i : Nat) : Bool :=
  p2pDevices.any (fun p => p.1 = i ∨ p.2 = i)

/-- The call `Names::Find<Node> (name)`: the index in the node container of
the node registered under that name, nothing (the null pointer) when no node
has it. -/
def NS3Netsim.Find (self : NS3Netsim) (name : String) : Option Nat :=
  NamesFind self.nodes name

/-- Does node `i` have an interface 1, that is, does a link end on it. -/
def NS3Netsim.hasInterface1 (self : NS3Netsim) (i : Nat) : Bool :=
  linkEndsOn self.p2pDevices i

/-- The effect of `helper.Install` followed by `allApplications.Add`: the
application is on its node and in the container of the adapter. -/
def NS3Netsim.install (self : NS3Netsim) (app : Application) : NS3Netsim :=
  { self with installed := self.installed ++ [app]
              allApplications := self.allApplications ++ [app] }

/-- The call `helper.Install (name)`: the helper looks the name up and adds
the application to the node; for a name without a node it calls through the
null pointer. -/
def NS3Netsim.Install (self : NS3Netsim) (app : Application) : Result :=
  match self.Find app.node with
  | some _ => .ok (self.install app)
  | none => .error (Abort.nullNode, self)

/-- The member `NS3Netsim::setUpServer`. -/
def NS3Netsim.setUpServer (self : NS3Netsim) (address : InetSocketAddress)
    (protocol server : String) : Result :=
  let finish (s : NS3Netsim) : NS3Netsim :=
    { s with nodeServerList := sort (s.nodeServerList ++ [server]) }
  if protocol = "tcp" then do
    let s ← self.Install ⟨AppClass.MultiClientTcpServer, server, address⟩
    pure (finish s)
  else if protocol = "udp" then do
    let s ← self.Install ⟨AppClass.CustomUdpServer, server, ⟨Ipv4Address.any, self.sinkPort⟩⟩
    pure (finish s)
  else
    .error (Abort.invalidProtocolServer, self)

/-- The member `NS3Netsim::setUpClient`. -/
def NS3Netsim.setUpClient (self : NS3Netsim) (address : InetSocketAddress)
    (protocol _server client : String) : Result :=
  if protocol = "tcp" then
    self.Install ⟨AppClass.TcpClient, client, address⟩
  else if protocol = "udp" then
    self.Install ⟨AppClass.CustomUdpClient, client, address⟩
  else
    .error (Abort.invalidProtocolClient, self)

/-- The member `NS3Netsim::create`.  After the server part the node of the
server is looked up again and its interface 1 is read, both unguarded, before
`setUpClient` is called.  The debug line that prints `*iList` is part of the
logging and is left out. -/
def NS3Netsim.create (self : NS3Netsim) (client server : String) : Result :=
  if connectionExists self.arrayAppConnections client server then
    .ok self
  else do
    let s1 : NS3Netsim :=
      { self with arrayAppConnections := self.arrayAppConnections ++ [[client, server]] }
    let s2 ←
      if server ∈ s1.nodeServerList then pure s1
      else s1.setUpServer ⟨Ipv4Address.any, s1.sinkPort⟩ s1.tcpOrUdp server
    match s2.Find server with
    | none => .error (Abort.nullNode, s2)
    | some dstNode =>
      if s2.hasInterface1 dstNode then
        s2.setUpClient ⟨Ipv4Address.iface server 1, s2.sinkPort⟩ s2.tcpOrUdp server client
      else
        .error (Abort.noInterface, s2)

/-- A sequence of `create` calls, one after the other; the first call that
ends the process ends the sequence. -/
def NS3Netsim.createAll (self : NS3Netsim) (calls : List (String × String)) : Result :=
  calls.foldlM (fun s call => s.create call.1 call.2) self

/-- The server applications in a list of applications. -/
def serverApps (apps : List Application) : List Application :=
  apps.filter Application.isServer

/-- The client applications in a list of applications. -/
def clientApps (apps : List Application) : List Application :=
  apps.filter Application.isClient

/-! ## schedule -/

/-- The call `node->GetApplication (i)` on the node of that name: the entry
`i` of its application list, nothing when the list is shorter (the engine
asserts the index is in range). -/
def NS3Netsim.GetApplication (self : NS3Netsim) (node : String) (i : Nat) :
    Option Application :=
  (self.installed.filter (fun a => a.node = node)).get? i

/-- The cast `DynamicCast<T>`: the application when it is of class `T`, the
null pointer otherwise. -/
def DynamicCast (cls : AppClass) (p : Option Application) : Option Application :=
  p.filter (fun a => a.cls = cls)

/-- The application `schedule` picks on the source node: entry 0 of the
node's list when it is of the client class, else entry 1 cast the same way. -/
def NS3Netsim.pickClientApp (self : NS3Netsim) (cls : AppClass) (src : String) :
    Option Application :=
  let clientApp := DynamicCast cls (self.GetApplication src 0)
  if clientApp = none then DynamicCast cls (self.GetApplication src 1) else clientApp

/-- Modelled from the spec: `TcpClient::ScheduleTransmit` and
`CustomUdpClient::ScheduleTransmit` are not among the sources; the call
enqueues the payload for transmission by that application, which is recorded
as one more entry of `transmits`.  A call through the null pointer ends the
process. -/
def NS3Netsim.ScheduleTransmit (self : NS3Netsim) (clientApp : Option Application)
    (val val_time : String) : Result :=
  match clientApp with
  | some app => .ok { self with transmits := self.transmits ++ [(app, val, val_time)] }
  | none => .error (Abort.nullClientApp, self)

/-- The member `NS3Netsim::schedule`.  The destination is an argument of the
function and is not read by it. -/
def NS3Netsim.schedule (self : NS3Netsim) (src _dst val val_time : String) : Result :=
  if self.tcpOrUdp = "tcp" then
    self.ScheduleTransmit (self.pickClientApp AppClass.TcpClient src) val val_time
  else if self.tcpOrUdp = "udp" then
    self.ScheduleTransmit (self.pickClientApp AppClass.CustomUdpClient src) val val_time
  else
    .ok self

/-! ## get_data -/

/-- The call `std::to_string (t)` on a `long long`: the decimal digits, after a
minus sign when the number is negative. -/
def to_string (t : Int) : String :=
  match t with
  | Int.ofNat n => ⟨Nat.toDigits 10 n⟩
  | Int.negSucc n => ⟨'-' :: Nat.toDigits 10 (n + 1)⟩

/-- What `get_data` gives back: the return value, the record after the call and
the four reference arguments after the call. -/
structure GetData where
  res : Int
  self : NS3Netsim
  src : String
  dst : String
  val_v : String
  val_t : String
  deriving DecidableEq

/-- The member `NS3Netsim::get_data`; the four strings are the reference
arguments as they are when the call is made. -/
def NS3Netsim.get_data (self : NS3Netsim) (src dst val_v val_t : String) : GetData :=
  match self.dataXchgOutput.getLast? with
  | some dataOut =>
    { res := 1
      self := { self with dataXchgOutput := self.dataXchgOutput.dropLast }
      src := dataOut.src
      dst := dataOut.dst
      val_v := dataOut.val
      val_t := to_string dataOut.time }
  | none =>
    { res := 0, self := self, src := src, dst := dst, val_v := val_v, val_t := val_t }

/-- The messages `n` calls of `get_data` in a row hand out, as the four
strings of each call that returned 1, and the record after the last call. -/
def NS3Netsim.drain : Nat → NS3Netsim → List (String × String × String × String) × NS3Netsim
  | 0, self => ([], self)
  | n + 1, self =>
    let r := self.get_data "" "" "" ""
    let rest := NS3Netsim.drain n r.self
    if r.res = 1 then ((r.src, r.dst, r.val_v, r.val_t) :: rest.1, rest.2) else rest

/-- The four strings `get_data` hands out for one record of the queue. -/
def DataXCHG.rendered (m : DataXCHG) : String × String × String × String :=
  (m.src, m.dst, m.val, to_string m.time)

/-! ## The receive handler -/

/-- The value `std::string::npos` where `size_t` has 64 bits. -/
def npos : Nat := 2 ^ 64 - 1

/-- The call `s.find ("&")`, for any one-byte pattern: the index of the first
occurrence, `npos` when there is none. -/
def find (s : List Char) (c : Char) : Nat :=
  if c ∈ s then s.indexOf c else npos

/-- The call `s.substr (pos, n)`: `std::out_of_range` when `pos` is behind the
end, else at most `n` bytes from `pos` on. -/
def substr (s : List Char) (pos n : Nat) : Option (List Char) :=
  if s.length < pos then none else some ((s.drop pos).take n)

/-- The test `isspace` of the C locale. -/
def isspace (c : Char) : Bool :=
  c.toNat = 32 ∨ (9 ≤ c.toNat ∧ c.toNat ≤ 13)

/-- The value of a run of decimal digits. -/
def digitsValue (ds : List Char) : Nat :=
  ds.foldl (fun acc c => 10 * acc + (c.toNat - 48)) 0

/-- The two exceptions of `stoll`, which are those of `stod` as well. -/
inductive StollError where
  | invalid_argument
  | out_of_range
  deriving DecidableEq

/-- The sign `stoll` reads: whether the number is negative, and what follows
the sign. -/
def stollSign (s : List Char) : Bool × List Char :=
  match s with
  | '-' :: r => (true, r)
  | '+' :: r => (false, r)
  | _ => (false, s)

/-- The call `std::stoll (s)`: white space is skipped, one sign is read, then
the longest run of decimal digits; no digit is `std::invalid_argument`, a value
outside the 64-bit range is `std::out_of_range`; what follows the digits is
not looked at. -/
def stoll (s : List Char) : Except StollError Int :=
  let signed := stollSign (s.dropWhile isspace)
  let ds := signed.2.takeWhile Char.isDigit
  if ds = [] then .error StollError.invalid_argument
  else
    let v : Int := if signed.1 then - (digitsValue ds : Int) else (digitsValue ds : Int)
    if v < - 2 ^ 63 ∨ 2 ^ 63 - 1 < v then .error StollError.out_of_range else .ok v

/-- The socket the handler is called on: the node it belongs to, by id, and
what `RecvFrom` returns, the packet and the address of its sender. -/
structure Socket where
  node : Nat
  fromAddress : Ipv4Address
  packet : List Char
  deriving DecidableEq

/-- The name `Names::FindName` gives for the node of that id in the node list:
the empty string for a node without a name. -/
def NS3Netsim.FindName (self : NS3Netsim) (id : Nat) : String :=
  self.nodes.getD id ""

/-- The expression `mapIpv4NodeId[a]` of a `std::map`: the id stored for the
address, and for an address that is not a key the value 0, stored under it. -/
def lookupOrInsert (m : List (Ipv4Address × Nat)) (a : Ipv4Address) :
    Nat × List (Ipv4Address × Nat) :=
  match m.lookup a with
  | some id => (id, m)
  | none => (0, m ++ [(a, 0)])

/-- The string `recMessage`: `string ((char*) buffer)` reads the bytes of the
buffer, and whatever lies behind it in memory, up to the first zero byte;
`substr (0, size)` then cuts that to the size of the packet. -/
def recMessage (packet behind : List Char) : List Char :=
  ((packet ++ behind).takeWhile (fun c => c ≠ Char.ofNat 0)).take packet.length

/-- The handler `ExtractInformationFromPacketAndSendToUpperLayer`.  The clock
`Simulator::Now ()` is read for the log line only; `behind` is the memory
behind the packet buffer. -/
def ExtractInformationFromPacketAndSendToUpperLayer (self : NS3Netsim) (_now : Int)
    (socket : Socket) (behind : List Char) : Result :=
  let msg := recMessage socket.packet behind
  let srcNodeId := lookupOrInsert self.mapIpv4NodeId socket.fromAddress
  let s1 : NS3Netsim := { self with mapIpv4NodeId := srcNodeId.2 }
  let current := find msg '&'
  match substr msg 0 current, substr msg ((current + 1) % 2 ^ 64) npos with
  | some val, some val_time =>
    match stoll val_time with
    | .ok time =>
      .ok { s1 with dataXchgOutput := s1.dataXchgOutput ++
              [{ src := s1.FindName srcNodeId.1
                 dst := s1.FindName socket.node
                 val := ⟨val⟩
                 time := time }] }
    | .error StollError.invalid_argument => .error (Abort.stollInvalidArgument, s1)
    | .error StollError.out_of_range => .error (Abort.stollOutOfRange, s1)
  | _, _ => .error (Abort.substrOutOfRange, s1)

/-! ## init -/

/-- The body of the inner loop of `init`: a 1 at `[i][j]` counts one link and
makes it between `nodes.Get (i)` and `nodes.Get (j)`, kept as the two indices;
an index beyond the nodes of the container ends the process. -/
def NS3Netsim.linkStep (row : List Nat) (i : Nat) (self : NS3Netsim) (j : Nat) : Result :=
  if row.getD j 0 = 1 then
    let s1 : NS3Netsim := { self with linkCount := self.linkCount + 1 }
    if i < s1.nodes.length ∧ j < s1.nodes.length then
      .ok { s1 with p2pDevices := s1.p2pDevices ++ [(i, j)] }
    else
      .error (Abort.nodeIndexOutOfRange, s1)
  else .ok self

/-- The inner loop of `init`: `j` runs from `i` to the end of row `i`. -/
def NS3Netsim.linkRow (self : NS3Netsim) (row : List Nat) (i : Nat) : Result :=
  (List.range' i (row.length - i)).foldlM (NS3Netsim.linkStep row i) self

/-- The outer loop of `init`: `i` runs over the rows of the matrix. -/
def NS3Netsim.linkAll (self : NS3Netsim) (nodeAdjMatrix : List (List Nat)) : Result :=
  (List.range nodeAdjMatrix.length).foldlM
    (fun s i => s.linkRow (nodeAdjMatrix.getD i []) i) self

/-- The call `Names::Add (name, nodes.Get (m))`: node `m` gets the name; the
call fails when the name is taken or the node has a name.  The empty string
stands for no name here and cannot be given; names are single segments, the
path forms of the name service are not modelled. -/
def NamesAdd (nodes : List String) (name : String) (m : Nat) : Option (List String) :=
  if name = "" ∨ name ∈ nodes ∨ nodes.getD m "" ≠ "" then none
  else some (nodes.set m name)

/-- The body of the node loop of `init`: `Names::Add` gives node `m` the name
in column 0 of line `m`; when the call fails the process ends. -/
def NS3Netsim.nameNode (arrayNamesCoords : List (List String)) (self : NS3Netsim)
    (m : Nat) : Result :=
  match NamesAdd self.nodes ((arrayNamesCoords.getD m []).headD "") m with
  | some named => .ok { self with nodes := named }
  | none => .error (Abort.namesAddFailed, self)

/-- The node loop of `init`: `nodes.Create (n)` adds `n` nodes without a name,
then the nodes are named in the order of the lines. -/
def NS3Netsim.createNodes (self : NS3Netsim) (arrayNamesCoords : List (List String)) :
    Result :=
  let created : NS3Netsim :=
    { self with nodes := self.nodes ++ List.replicate arrayNamesCoords.length "" }
  (List.range arrayNamesCoords.length).foldlM (NS3Netsim.nameNode arrayNamesCoords) created

/-- The member `NS3Netsim::init`.  The matrix and the coordinate table are what
`ReadNodeAdjMatrix` and `ReadCoordinatesFile` return for the two files, and
`CreateMapIpv4NodeId` is the helper of that name; none of the three is among
the sources.  `stod` is the library call, applied to the error rate after the
links are made: it returns (nothing) or throws.  What the engine does with
the rate and the delay of the links, the positions and the trace file is its
own and is left out. -/
def NS3Netsim.init (self : NS3Netsim) (nodeAdjMatrix : List (List Nat))
    (arrayNamesCoords : List (List String))
    (s_linkRate s_linkDelay s_linkErrorRate : String) (verb : Int) (s_tcpOrUdp : String)
    (stod : String → Option StollError)
    (CreateMapIpv4NodeId : List String → List (Ipv4Address × Nat)) : Result :=
  let s1 : NS3Netsim :=
    { self with allApplications := []
                verbose := verb
                tcpOrUdp := s_tcpOrUdp
                LinkRate := s_linkRate
                LinkDelay := s_linkDelay
                LinkErrorRate := s_linkErrorRate
                linkCount := 0
                sinkPort := 3030 }
  if nodeAdjMatrix.length ≠ arrayNamesCoords.length then
    .error (Abort.sizeMismatch arrayNamesCoords.length nodeAdjMatrix.length, s1)
  else do
    let s2 ← s1.createNodes arrayNamesCoords
    let s3 ← s2.linkAll nodeAdjMatrix
    match stod s3.LinkErrorRate with
    | some StollError.invalid_argument => .error (Abort.stodInvalidArgument, s3)
    | some StollError.out_of_range => .error (Abort.stodOutOfRange, s3)
    | none =>
      let s4 : NS3Netsim := { s3 with mapIpv4NodeId := CreateMapIpv4NodeId s3.nodes }
      pure { s4 with nodeServerList := unique (sort s4.nodeServerList) }

/-! ## Facts about create -/

/-- The class of server application `setUpServer` installs for a protocol. -/
def serverClass (protocol : String) : AppClass :=
  if protocol = "tcp" then AppClass.MultiClientTcpServer else AppClass.CustomUdpServer

/-- The class of client application `setUpClient` installs for a protocol. -/
def clientClass (protocol : String) : AppClass :=
  if protocol = "tcp" then AppClass.TcpClient else AppClass.CustomUdpClient

/-- The server application `create` installs on a server node. -/
def serverAppOf (self : NS3Netsim) (server : String) : Application :=
  ⟨serverClass self.tcpOrUdp, server, ⟨Ipv4Address.any, self.sinkPort⟩⟩

/-- The client application `create` installs for a pair. -/
def clientAppOf (self : NS3Netsim) (client server : String) : Application :=
  ⟨clientClass self.tcpOrUdp, client, ⟨Ipv4Address.iface server 1, self.sinkPort⟩⟩

/-- The applications one `create` call for a new pair installs, in order. -/
def newApps (self : NS3Netsim) (client server : String) : List Application :=
  (if server ∈ self.nodeServerList then [] else [serverAppOf self server]) ++
    [clientAppOf self client server]

/-- The record after a `create` call for a new pair that returns. -/
def created (self : NS3Netsim) (client server : String) : NS3Netsim :=
  { self with
    arrayAppConnections := self.arrayAppConnections ++ [[client, server]]
    nodeServerList :=
      if server ∈ self.nodeServerList then self.nodeServerList
      else sort (self.nodeServerList ++ [server])
    allApplications := self.allApplications ++ newApps self client server
    installed := self.installed ++ newApps self client server }

/-- A record with the protocol set and some connections made, for trying the
theorems on. -/
def sampleState : NS3Netsim :=
  { NS3Netsim.new with
    tcpOrUdp := "tcp"
    sinkPort := 3030
    nodes := ["A", "S1", "S2"]
    arrayAppConnections := [["A", "S1"]]
    nodeServerList := ["S1"]
    allApplications :=
      [⟨AppClass.MultiClientTcpServer, "S1", ⟨Ipv4Address.any, 3030⟩⟩,
       ⟨AppClass.TcpClient, "A", ⟨Ipv4Address.iface "S1" 1, 3030⟩⟩]
    installed :=
      [⟨AppClass.MultiClientTcpServer, "S1", ⟨Ipv4Address.any, 3030⟩⟩,
       ⟨AppClass.TcpClient, "A", ⟨Ipv4Address.iface "S1" 1, 3030⟩⟩] }

/-- What every record reached from a fresh one by `create` calls satisfies: the
protocol is one of the two, every connection record is a pair whose server is
on the server list, neither list repeats an entry, and there are as many
server applications as server names and as many client applications as
connection records. -/
def Consistent (s : NS3Netsim) : Prop :=
  (s.tcpOrUdp = "tcp" ∨ s.tcpOrUdp = "udp") ∧
  s.nodeServerList.Nodup ∧
  s.arrayAppConnections.Nodup ∧
  (∀ rec ∈ s.arrayAppConnections, ∃ a b, rec = [a, b] ∧ b ∈ s.nodeServerList) ∧
  (serverApps s.allApplications).length = s.nodeServerList.length ∧
  (serverApps s.installed).length = s.nodeServerList.length ∧
  (clientApps s.allApplications).length = s.arrayAppConnections.length ∧
  (clientApps s.installed).length = s.arrayAppConnections.length

/-- The connection record `create` writes for a call. -/
def recordOf (call : String × String) : List String := [call.1, call.2]

/-- The entry `nodeAdjMatrix[i][j]`, 0 where the matrix has no entry. -/
def entry (nodeAdjMatrix : List (List Nat)) (i j : Nat) : Nat :=
  (nodeAdjMatrix.getD i []).getD j 0

/-- The index pairs of row `i` that make a link: `(i, j)` for the `j` from `i`
to the end of the row with a 1 at `[i][j]`, in the order of the loop. -/
def rowLinks (row : List Nat) (i : Nat) : List (Nat × Nat) :=
  ((List.range' i (row.length - i)).filter (fun j => row.getD j 0 = 1)).map (fun j => (i, j))

/-- The index pairs of the whole matrix that make a link, row after row. -/
def matrixLinks (nodeAdjMatrix : List (List Nat)) : List (Nat × Nat) :=
  (List.range nodeAdjMatrix.length).flatMap (fun i => rowLinks (nodeAdjMatrix.getD i []) i)

/-- The number of entries of the matrix that are 1. -/
def onesCount (nodeAdjMatrix : List (List Nat)) : Nat :=
  (nodeAdjMatrix.map (fun row => row.count 1)).sum

/-- A matrix with three rows, symmetric with a zero diagonal. -/
def sampleMatrix : List (List Nat) := [[0, 1, 1], [1, 0, 0], [1, 0, 0]]

/-- A coordinate table with three lines: name, x and y of each node. -/
def sampleCoords : List (List String) :=
  [["A", "0", "0"], ["S1", "1", "0"], ["S2", "0", "1"]]

/-- A stand-in for the helper `CreateMapIpv4NodeId`: node `k` of the list under
the address of its interface 1. -/
def sampleMap (nodes : List String) : List (Ipv4Address × Nat) :=
  (List.range nodes.length).map (fun k => (Ipv4Address.iface (nodes.getD k "") 1, k))

/-- A stand-in for `std::stod`: it returns on digits with dots among them and
throws `std::invalid_argument` on any other string. -/
def sampleStod (s : String) : Option StollError :=
  if s.data.any Char.isDigit ∧ s.data.all (fun c => c.isDigit ∨ c = '.') then none
  else some StollError.invalid_argument

/-- The record `init` returns on the sample files with protocol "tcp". -/
def sampleFresh : NS3Netsim :=
  { NS3Netsim.new with
    tcpOrUdp := "tcp"
    LinkRate := "512Kbps"
    LinkDelay := "15ms"
    LinkErrorRate := "0.0001"
    sinkPort := 3030
    linkCount := 2
    nodes := ["A", "S1", "S2"]
    p2pDevices := [(0, 1), (0, 2)]
    mapIpv4NodeId :=
      [(Ipv4Address.iface "A" 1, 0), (Ipv4Address.iface "S1" 1, 1),
       (Ipv4Address.iface "S2" 1, 2)] }

/-- Four `create` calls that name two servers and three distinct pairs. -/
def sampleCalls : List (String × String) :=
  [("A", "S1"), ("A", "S2"), ("S2", "S1"), ("A", "S1")]

/-- The part of a message before its first '&', the whole message when it has
none: what the handler takes as the value. -/
def valPart (msg : List Char) : List Char :=
  msg.takeWhile (fun c => c ≠ '&')

/-- The part of a message behind its first '&', and the whole message when it
has none (`npos + 1` is 0): what the handler gives to `stoll`. -/
def timePart (msg : List Char) : List Char :=
  if '&' ∈ msg then (msg.dropWhile (fun c => c ≠ '&')).drop 1 else msg

/-- The record the handler appends for a message whose time field reads `t`. -/
def receivedRecord (self : NS3Netsim) (socket : Socket) (msg : List Char) (t : Int) :
    DataXCHG :=
  { src := self.nodes.getD (lookupOrInsert self.mapIpv4NodeId socket.fromAddress).1 ""
    dst := self.nodes.getD socket.node ""
    val := ⟨valPart msg⟩
    time := t }

/-- The sample record after `create ("A", "S1")` and `create ("A", "S2")`: "A" is
a client of "S1"
and of "S2". -/
def sampleTwoServers : NS3Netsim :=
  { sampleFresh with
    arrayAppConnections := [["A", "S1"], ["A", "S2"]]
    nodeServerList := ["S1", "S2"]
    allApplications :=
      [⟨AppClass.MultiClientTcpServer, "S1", ⟨Ipv4Address.any, 3030⟩⟩,
       ⟨AppClass.TcpClient, "A", ⟨Ipv4Address.iface "S1" 1, 3030⟩⟩,
       ⟨AppClass.MultiClientTcpServer, "S2", ⟨Ipv4Address.any, 3030⟩⟩,
       ⟨AppClass.TcpClient, "A", ⟨Ipv4Address.iface "S2" 1, 3030⟩⟩]
    installed :=
      [⟨AppClass.MultiClientTcpServer, "S1", ⟨Ipv4Address.any, 3030⟩⟩,
       ⟨AppClass.TcpClient, "A", ⟨Ipv4Address.iface "S1" 1, 3030⟩⟩,
       ⟨AppClass.MultiClientTcpServer, "S2", ⟨Ipv4Address.any, 3030⟩⟩,
       ⟨AppClass.TcpClient, "A", ⟨Ipv4Address.iface "S2" 1, 3030⟩⟩] }

/-- A socket of node 1 ("S1") holding a packet sent from the address of "A". -/
def sampleSocket (packet : List Char) : Socket :=
  { node := 1, fromAddress := Ipv4Address.iface "A" 1, packet := packet }

/-- A character that is one of the ten decimal digits. -/
def IsDecimalDigit (c : Char) : Prop := ∃ k, k < 10 ∧ c = Nat.digitChar k

/-- Can `create (client, server)` get through its calls into the engine: the
client names a node, and the server names a node that has an interface 1. -/
def NS3Netsim.canCreate (self : NS3Netsim) (client server : String) : Bool :=
  (self.Find client).isSome &&
    match self.Find server with
    | some dstNode => self.hasInterface1 dstNode
    | none => false

/-- A matrix with three rows and the one link between node 0 and node 1. -/
def sampleMatrixOneLink : List (List Nat) := [[0, 1, 0], [1, 0, 0], [0, 0, 0]]

/-- The record `init` returns on the one-link matrix and the sample table:
node "S2" has no link. -/
def sampleOneLink : NS3Netsim :=
  { sampleFresh with linkCount := 1, p2pDevices := [(0, 1)] }

/-- Every name on the server list is the name of a node with an interface 1. -/
def ServersLinked (s : NS3Netsim) : Prop :=
  ∀ x ∈ s.nodeServerList, ∃ dstNode, s.Find x = some dstNode ∧ s.hasInterface1 dstNode = true

/-! # Theorems -/

theorem connectionExists_iff (conns : List (List String)) (client server : String) :
    connectionExists conns client server = true ↔
      ∃ rec ∈ conns, rec.head? = some client ∧ rec.getLast? = some server := by
  simp [connectionExists]

theorem connectionExists_of_mem {conns : List (List String)} {client server : String}
    (h : [client, server] ∈ conns) : connectionExists conns client server = true := by
  rw [connectionExists_iff]
  exact ⟨[client, server], h, by simp, by simp⟩

theorem create_of_exists (self : NS3Netsim) (client server : String)
    (h : connectionExists self.arrayAppConnections client server = true) :
    self.create client server = .ok self := by
  simp [NS3Netsim.create, h]

theorem create_new_ok (self : NS3Netsim) (client server : String)
    (hp : self.tcpOrUdp = "tcp" ∨ self.tcpOrUdp = "udp")
    (h : connectionExists self.arrayAppConnections client server = false)
    (hcan : self.canCreate client server = true) :
    self.create client server = .ok (created self client server) := by
  have hne : ("udp" : String) ≠ "tcp" := by decide
  simp only [NS3Netsim.canCreate, Bool.and_eq_true, Option.isSome_iff_exists,
    NS3Netsim.Find, NS3Netsim.hasInterface1] at hcan
  obtain ⟨⟨ic, hc⟩, hs⟩ := hcan
  cases hfs : NamesFind self.nodes server with
  | none => rw [hfs] at hs; cases hs
  | some dst =>
    rw [hfs] at hs
    simp only at hs
    rcases hp with hp | hp <;> by_cases hl : server ∈ self.nodeServerList <;>
      simp [NS3Netsim.create, h, hl, hp, hne, NS3Netsim.setUpServer, NS3Netsim.setUpClient,
        NS3Netsim.Install, NS3Netsim.install, NS3Netsim.Find, NS3Netsim.hasInterface1,
        hc, hfs, hs, created, newApps, serverAppOf, clientAppOf, serverClass, clientClass,
        bind, Except.bind, pure, Except.pure]

theorem create_new_fail (self : NS3Netsim) (client server : String)
    (h : connectionExists self.arrayAppConnections client server = false)
    (hcan : self.canCreate client server = false) (s : NS3Netsim) :
    self.create client server ≠ .ok s := by
  intro hok
  have hne : ("udp" : String) ≠ "tcp" := by decide
  simp only [NS3Netsim.canCreate, NS3Netsim.Find, NS3Netsim.hasInterface1] at hcan
  cases hc : NamesFind self.nodes client <;>
    cases hfs : NamesFind self.nodes server <;>
    by_cases hl : server ∈ self.nodeServerList <;>
    by_cases ht : self.tcpOrUdp = "tcp" <;>
    by_cases hu : self.tcpOrUdp = "udp" <;>
    simp [NS3Netsim.create, h, hl, ht, hu, hne, NS3Netsim.setUpServer, NS3Netsim.setUpClient,
      NS3Netsim.Install, NS3Netsim.install, NS3Netsim.Find, NS3Netsim.hasInterface1,
      hc, hfs, bind, Except.bind, pure, Except.pure] at hok hcan <;>
    (split at hok <;> simp_all)

theorem create_bad_protocol (self : NS3Netsim) (client server : String)
    (ht : self.tcpOrUdp ≠ "tcp") (hu : self.tcpOrUdp ≠ "udp")
    (h : connectionExists self.arrayAppConnections client server = false) (s : NS3Netsim) :
    self.create client server ≠ .ok s := by
  intro hok
  cases hfs : NamesFind self.nodes server <;>
    by_cases hl : server ∈ self.nodeServerList <;>
    simp [NS3Netsim.create, h, hl, ht, hu, NS3Netsim.setUpServer, NS3Netsim.setUpClient,
      NS3Netsim.Find, NS3Netsim.hasInterface1, hfs, bind, Except.bind, pure, Except.pure] at hok
  split at hok <;> simp_all

theorem create_ok_cases {self s : NS3Netsim} {client server : String}
    (h : self.create client server = .ok s) :
    (connectionExists self.arrayAppConnections client server = true ∧ s = self) ∨
    (connectionExists self.arrayAppConnections client server = false ∧
      self.canCreate client server = true ∧
      (self.tcpOrUdp = "tcp" ∨ self.tcpOrUdp = "udp") ∧ s = created self client server) := by
  by_cases hc : connectionExists self.arrayAppConnections client server = true
  · rw [create_of_exists self client server hc] at h
    cases h
    exact Or.inl ⟨hc, rfl⟩
  · simp only [Bool.not_eq_true] at hc
    by_cases hcan : self.canCreate client server = true
    · by_cases ht : self.tcpOrUdp = "tcp"
      · rw [create_new_ok self client server (Or.inl ht) hc hcan] at h
        cases h
        exact Or.inr ⟨hc, hcan, Or.inl ht, rfl⟩
      · by_cases hu : self.tcpOrUdp = "udp"
        · rw [create_new_ok self client server (Or.inr hu) hc hcan] at h
          cases h
          exact Or.inr ⟨hc, hcan, Or.inr hu, rfl⟩
        · exact absurd h (create_bad_protocol self client server ht hu hc s)
    · simp only [Bool.not_eq_true] at hcan
      exact absurd h (create_new_fail self client server hc hcan s)

theorem create_ok_exists {self s : NS3Netsim} {client server : String}
    (h : self.create client server = .ok s) :
    connectionExists s.arrayAppConnections client server = true := by
  rcases create_ok_cases h with ⟨hc, rfl⟩ | ⟨_, _, _, rfl⟩
  · exact hc
  · exact connectionExists_of_mem (by simp [created])

/-- C1: `create` is idempotent on a repeated pair.  In every record whose
connection list holds the record of (client, server), `create (client, server)`
returns and leaves the whole record as it was, the connection list, the server
list and the installed applications included; and from every record, two
`create (client, server)` calls in a row end as one does, in the same record
or in the same fatal error. -/
theorem create_idempotent (self : NS3Netsim) (client server : String) :
    ([client, server] ∈ self.arrayAppConnections → self.create client server = .ok self) ∧
    (self.create client server >>= fun s => s.create client server)
      = self.create client server := by
  refine ⟨fun h => create_of_exists self client server (connectionExists_of_mem h), ?_⟩
  cases h : self.create client server with
  | error e => rfl
  | ok s =>
    show s.create client server = .ok s
    exact create_of_exists s client server (create_ok_exists h)

/-- C1 at a record that holds the pair ("A", "S1"). -/
theorem create_idempotent_witness :
    ["A", "S1"] ∈ sampleState.arrayAppConnections ∧
    sampleState.create "A" "S1" = .ok sampleState :=
  ⟨by decide, (create_idempotent sampleState "A" "S1").1 (by decide)⟩

theorem sort_perm (v : List String) : (sort v).Perm v :=
  List.perm_insertionSort _ v

theorem mem_sort {v : List String} {x : String} : x ∈ sort v ↔ x ∈ v :=
  (sort_perm v).mem_iff

theorem serverApps_newApps (self : NS3Netsim) (client server : String)
    (hp : self.tcpOrUdp = "tcp" ∨ self.tcpOrUdp = "udp") :
    serverApps (newApps self client server) =
      if server ∈ self.nodeServerList then [] else [serverAppOf self server] := by
  have hne : ("udp" : String) ≠ "tcp" := by decide
  rcases hp with hp | hp <;> by_cases hs : server ∈ self.nodeServerList <;>
    simp [serverApps, newApps, hs, hp, hne, serverAppOf, clientAppOf, serverClass,
      clientClass, Application.isServer, List.filter_cons]

theorem clientApps_newApps (self : NS3Netsim) (client server : String)
    (hp : self.tcpOrUdp = "tcp" ∨ self.tcpOrUdp = "udp") :
    clientApps (newApps self client server) = [clientAppOf self client server] := by
  have hne : ("udp" : String) ≠ "tcp" := by decide
  rcases hp with hp | hp <;> by_cases hs : server ∈ self.nodeServerList <;>
    simp [clientApps, newApps, hs, hp, hne, serverAppOf, clientAppOf, serverClass,
      clientClass, Application.isClient, List.filter_cons]

theorem pair_of_exists {conns : List (List String)} {client server : String}
    (hpair : ∀ rec ∈ conns, ∃ a b, rec = [a, b])
    (h : connectionExists conns client server = true) : [client, server] ∈ conns := by
  rw [connectionExists_iff] at h
  obtain ⟨rec, hmem, hh, hl⟩ := h
  obtain ⟨a, b, rfl⟩ := hpair rec hmem
  simp at hh hl
  subst hh
  subst hl
  exact hmem

theorem not_exists_not_mem {conns : List (List String)} {client server : String}
    (h : connectionExists conns client server = false) : [client, server] ∉ conns := by
  intro hmem
  rw [connectionExists_of_mem hmem] at h
  cases h

theorem consistent_created (s : NS3Netsim) (client server : String) (hc : Consistent s)
    (h : connectionExists s.arrayAppConnections client server = false) :
    Consistent (created s client server) := by
  obtain ⟨hp, hnd, hcd, hrec, hsa, hsi, hca, hci⟩ := hc
  have hnm := not_exists_not_mem h
  have hsA := serverApps_newApps s client server hp
  have hcA := clientApps_newApps s client server hp
  simp only [serverApps] at hsA hsa hsi
  simp only [clientApps] at hcA hca hci
  refine ⟨hp, ?_, ?_, ?_, ?_, ?_, ?_, ?_⟩
  · by_cases hs : server ∈ s.nodeServerList
    · simpa [created, hs] using hnd
    · simp only [created, hs, if_false]
      refine (sort_perm _).nodup_iff.mpr ?_
      exact List.nodup_append.mpr ⟨hnd, by simp, by simpa using hs⟩
  · simp only [created]
    exact List.nodup_append.mpr ⟨hcd, by simp, by simpa using hnm⟩
  · intro rec hmem
    simp only [created, List.mem_append, List.mem_singleton] at hmem
    have hserver : server ∈ (created s client server).nodeServerList := by
      by_cases hs : server ∈ s.nodeServerList
      · simp [created, hs]
      · simp [created, hs, mem_sort]
    have hmono : ∀ x ∈ s.nodeServerList, x ∈ (created s client server).nodeServerList := by
      intro x hx
      by_cases hs : server ∈ s.nodeServerList
      · simpa [created, hs] using hx
      · simp [created, hs, mem_sort, hx]
    rcases hmem with hmem | hmem
    · obtain ⟨a, b, hab, hb⟩ := hrec rec hmem
      exact ⟨a, b, hab, hmono b hb⟩
    · exact ⟨client, server, hmem, hserver⟩
  · by_cases hs : server ∈ s.nodeServerList
    · simp [created, serverApps, hsA, hs, hsa]
    · simp [created, serverApps, hsA, hs, hsa, (sort_perm _).length_eq]
  · by_cases hs : server ∈ s.nodeServerList
    · simp [created, serverApps, hsA, hs, hsi]
    · simp [created, serverApps, hsA, hs, hsi, (sort_perm _).length_eq]
  · simp [created, clientApps, hcA, hca]
  · simp [created, clientApps, hcA, hci]

theorem canCreate_created (s : NS3Netsim) (client server a b : String) :
    (created s client server).canCreate a b = s.canCreate a b := rfl

theorem create_step {s s1 : NS3Netsim} {client server : String} (hc : Consistent s)
    (h : s.create client server = .ok s1) :
    Consistent s1 ∧
      (∀ x, x ∈ s1.nodeServerList ↔ x ∈ s.nodeServerList ∨ x = server) ∧
      (∀ r, r ∈ s1.arrayAppConnections ↔
        r ∈ s.arrayAppConnections ∨ r = [client, server]) ∧
      s1.tcpOrUdp = s.tcpOrUdp ∧ s1.sinkPort = s.sinkPort ∧
      (∀ a b, s1.canCreate a b = s.canCreate a b) := by
  rcases create_ok_cases h with ⟨hex, rfl⟩ | ⟨hex, _, _, rfl⟩
  · have hmem : [client, server] ∈ s1.arrayAppConnections :=
      pair_of_exists (fun rec hr => by
        obtain ⟨a, b, hab, _⟩ := hc.2.2.2.1 rec hr
        exact ⟨a, b, hab⟩) hex
    have hserver : server ∈ s1.nodeServerList := by
      obtain ⟨a, b, hab, hb⟩ := hc.2.2.2.1 _ hmem
      simp at hab
      rw [hab.2]
      exact hb
    refine ⟨hc, ?_, ?_, rfl, rfl, fun _ _ => rfl⟩
    · intro x
      constructor
      · exact Or.inl
      · rintro (hx | rfl)
        · exact hx
        · exact hserver
    · intro r
      constructor
      · exact Or.inl
      · rintro (hr | rfl)
        · exact hr
        · exact hmem
  · refine ⟨consistent_created s client server hc hex, ?_, ?_, rfl, rfl, fun _ _ => rfl⟩
    · intro x
      by_cases hs : server ∈ s.nodeServerList
      · simp only [created, hs, if_true]
        constructor
        · exact Or.inl
        · rintro (hx | rfl)
          · exact hx
          · exact hs
      · simp [created, hs, mem_sort]
    · intro r
      simp [created]

theorem create_returns (s : NS3Netsim) (client server : String)
    (hp : s.tcpOrUdp = "tcp" ∨ s.tcpOrUdp = "udp")
    (hcan : s.canCreate client server = true) : ∃ s1, s.create client server = .ok s1 := by
  by_cases hex : connectionExists s.arrayAppConnections client server = true
  · exact ⟨s, create_of_exists s client server hex⟩
  · simp only [Bool.not_eq_true] at hex
    exact ⟨_, create_new_ok s client server hp hex hcan⟩

theorem createAll_cons (s : NS3Netsim) (call : String × String)
    (calls : List (String × String)) :
    s.createAll (call :: calls) = s.create call.1 call.2 >>= fun s1 => s1.createAll calls := by
  simp [NS3Netsim.createAll, List.foldlM_cons]

theorem createAll_cons_ok {s s2 : NS3Netsim} {call : String × String}
    {calls : List (String × String)} (h : s.createAll (call :: calls) = .ok s2) :
    ∃ s1, s.create call.1 call.2 = .ok s1 ∧ s1.createAll calls = .ok s2 := by
  rw [createAll_cons] at h
  cases h1 : s.create call.1 call.2 with
  | error e => rw [h1] at h; cases h
  | ok s1 => rw [h1] at h; exact ⟨s1, rfl, h⟩

theorem createAll_consistent (calls : List (String × String)) :
    ∀ s s1 : NS3Netsim, Consistent s → s.createAll calls = .ok s1 →
      Consistent s1 ∧
        (∀ x, x ∈ s1.nodeServerList ↔ x ∈ s.nodeServerList ∨ x ∈ calls.map Prod.snd) ∧
        (∀ r, r ∈ s1.arrayAppConnections ↔
          r ∈ s.arrayAppConnections ∨ r ∈ calls.map recordOf) ∧
        s1.tcpOrUdp = s.tcpOrUdp ∧ s1.sinkPort = s.sinkPort ∧
        (∀ a b, s1.canCreate a b = s.canCreate a b) := by
  induction calls with
  | nil =>
    intro s s1 hc h
    simp only [NS3Netsim.createAll, List.foldlM_nil, pure, Except.pure, Except.ok.injEq] at h
    subst h
    exact ⟨hc, by simp, by simp, rfl, rfl, fun _ _ => rfl⟩
  | cons call calls ih =>
    intro s s2 hc h
    obtain ⟨s1, h1, h2⟩ := createAll_cons_ok h
    obtain ⟨hc1, hs1, hr1, ht1, hk1, hn1⟩ := create_step hc h1
    obtain ⟨hc2, hs2, hr2, ht2, hk2, hn2⟩ := ih s1 s2 hc1 h2
    refine ⟨hc2, ?_, ?_, ht2.trans ht1, hk2.trans hk1, fun a b => (hn2 a b).trans (hn1 a b)⟩
    · intro x
      rw [hs2, hs1]
      simp [or_assoc]
    · intro r
      rw [hr2, hr1]
      simp [or_assoc, recordOf]

theorem createAll_returns (calls : List (String × String)) :
    ∀ s : NS3Netsim, Consistent s →
      (∀ call ∈ calls, s.canCreate call.1 call.2 = true) →
      ∃ s1, s.createAll calls = .ok s1 := by
  induction calls with
  | nil =>
    intro s _ _
    exact ⟨s, rfl⟩
  | cons call calls ih =>
    intro s hc hcan
    obtain ⟨s1, h1⟩ := create_returns s call.1 call.2 hc.1 (hcan call (by simp))
    obtain ⟨hc1, _, _, _, _, hn1⟩ := create_step hc h1
    obtain ⟨s2, h2⟩ := ih s1 hc1 (fun c hmem => by
      rw [hn1]
      exact hcan c (List.mem_cons_of_mem _ hmem))
    exact ⟨s2, by rw [createAll_cons, h1]; exact h2⟩


/-! ## Facts about init -/

theorem foldlM_linkStep_ok (row : List Nat) (i : Nat) (js : List Nat) :
    ∀ s s1 : NS3Netsim, js.foldlM (NS3Netsim.linkStep row i) s = .ok s1 →
      s1 = { s with
        linkCount := s.linkCount +
          ((js.filter (fun j => row.getD j 0 = 1)).map (fun j => (i, j))).length
        p2pDevices := s.p2pDevices ++
          (js.filter (fun j => row.getD j 0 = 1)).map (fun j => (i, j)) } := by
  induction js with
  | nil =>
    intro s s1 h
    simp only [List.foldlM_nil, pure, Except.pure, Except.ok.injEq] at h
    subst h
    simp
  | cons j js ih =>
    intro s s1 h
    rw [List.foldlM_cons] at h
    by_cases h1 : row.getD j 0 = 1
    · by_cases hr : i < s.nodes.length ∧ j < s.nodes.length
      · have hstep : NS3Netsim.linkStep row i s j = .ok
            { s with linkCount := s.linkCount + 1, p2pDevices := s.p2pDevices ++ [(i, j)] } := by
          simp only [NS3Netsim.linkStep, h1, if_true, hr, and_self]
        rw [hstep] at h
        have h2 := ih _ s1 h
        rw [h2]
        have h3 : row[j]?.getD 0 = 1 := by simpa using h1
        simp [List.filter_cons, h3]
        omega
      · have hstep : NS3Netsim.linkStep row i s j = .error
            (Abort.nodeIndexOutOfRange, { s with linkCount := s.linkCount + 1 }) := by
          simp only [NS3Netsim.linkStep, h1, if_true, hr, if_false]
        rw [hstep] at h
        cases h
    · have hstep : NS3Netsim.linkStep row i s j = .ok s := by
        simp only [NS3Netsim.linkStep, h1, if_false]
      rw [hstep] at h
      have h2 := ih _ s1 h
      rw [h2]
      have h3 : ¬ row[j]?.getD 0 = 1 := by simpa using h1
      simp [List.filter_cons, h3]

theorem linkRow_ok {s s1 : NS3Netsim} {row : List Nat} {i : Nat}
    (h : s.linkRow row i = .ok s1) :
    s1 = { s with linkCount := s.linkCount + (rowLinks row i).length
                  p2pDevices := s.p2pDevices ++ rowLinks row i } :=
  foldlM_linkStep_ok row i _ s s1 h

theorem foldlM_linkRow_ok (m : List (List Nat)) (is : List Nat) :
    ∀ s s1 : NS3Netsim, is.foldlM (fun s i => s.linkRow (m.getD i []) i) s = .ok s1 →
      s1 = { s with
        linkCount := s.linkCount + (is.flatMap (fun i => rowLinks (m.getD i []) i)).length
        p2pDevices := s.p2pDevices ++ is.flatMap (fun i => rowLinks (m.getD i []) i) } := by
  induction is with
  | nil =>
    intro s s1 h
    simp only [List.foldlM_nil, pure, Except.pure, Except.ok.injEq] at h
    subst h
    simp
  | cons i is ih =>
    intro s s1 h
    rw [List.foldlM_cons] at h
    cases hrow : s.linkRow (m.getD i []) i with
    | error e => rw [hrow] at h; cases h
    | ok s2 =>
      rw [hrow] at h
      have h2 := ih s2 s1 h
      rw [h2, linkRow_ok hrow]
      simp [List.flatMap_cons]
      omega

theorem linkAll_ok {s s1 : NS3Netsim} {m : List (List Nat)} (h : s.linkAll m = .ok s1) :
    s1 = { s with linkCount := s.linkCount + (matrixLinks m).length
                  p2pDevices := s.p2pDevices ++ matrixLinks m } :=
  foldlM_linkRow_ok m _ s s1 h

theorem nameNode_ok {coords : List (List String)} {s s1 : NS3Netsim} {m : Nat}
    (h : NS3Netsim.nameNode coords s m = .ok s1) : s1 = { s with nodes := s1.nodes } := by
  unfold NS3Netsim.nameNode at h
  split at h
  · simp only [Except.ok.injEq] at h
    rw [← h]
  · cases h

theorem foldlM_names_ok (coords : List (List String)) (ms : List Nat) :
    ∀ s s1 : NS3Netsim, ms.foldlM (NS3Netsim.nameNode coords) s = .ok s1 →
      s1 = { s with nodes := s1.nodes } := by
  induction ms with
  | nil =>
    intro s s1 h
    simp only [List.foldlM_nil, pure, Except.pure, Except.ok.injEq] at h
    subst h
    rfl
  | cons m ms ih =>
    intro s s1 h
    rw [List.foldlM_cons] at h
    cases hstep : NS3Netsim.nameNode coords s m with
    | error e => rw [hstep] at h; cases h
    | ok s2 =>
      rw [hstep] at h
      have h2 := ih s2 s1 h
      rw [h2, nameNode_ok hstep]

theorem createNodes_ok {s s1 : NS3Netsim} {coords : List (List String)}
    (h : s.createNodes coords = .ok s1) : s1 = { s with nodes := s1.nodes } := by
  have h2 := foldlM_names_ok coords _ _ s1 h
  rw [h2]

theorem unique_nil : unique [] = [] := by
  simp [unique]

theorem sort_nil : sort [] = [] := by
  simp [sort]

theorem init_ok_fields {self s : NS3Netsim} {m : List (List Nat)}
    {coords : List (List String)} {rate delay err : String} {verb : Int} {proto : String}
    {stod : String → Option StollError} {mk : List String → List (Ipv4Address × Nat)}
    (h : self.init m coords rate delay err verb proto stod mk = .ok s) :
    m.length = coords.length ∧ stod err = none ∧
    s = { self with
        allApplications := []
        verbose := verb
        tcpOrUdp := proto
        LinkRate := rate
        LinkDelay := delay
        LinkErrorRate := err
        linkCount := (matrixLinks m).length
        sinkPort := 3030
        nodes := s.nodes
        p2pDevices := self.p2pDevices ++ matrixLinks m
        mapIpv4NodeId := mk s.nodes
        nodeServerList := unique (sort self.nodeServerList) } := by
  unfold NS3Netsim.init at h
  by_cases hlen : m.length = coords.length
  · simp only [hlen, ne_eq, not_true_eq_false, if_false] at h
    cases h2 : NS3Netsim.createNodes
        { self with allApplications := [], verbose := verb, tcpOrUdp := proto,
                    LinkRate := rate, LinkDelay := delay, LinkErrorRate := err,
                    linkCount := 0, sinkPort := 3030 } coords with
    | error e => simp [h2, bind, Except.bind] at h
    | ok s2 =>
      simp only [h2, bind, Except.bind] at h
      cases h3 : s2.linkAll m with
      | error e => simp [h3] at h
      | ok s3 =>
        simp only [h3] at h
        have e2 := createNodes_ok h2
        have e3 := linkAll_ok h3
        have herr : s3.LinkErrorRate = err := by rw [e3, e2]
        rw [herr] at h
        cases hst : stod err with
        | some e => cases e <;> simp [hst] at h
        | none =>
          simp only [hst, pure, Except.pure, Except.ok.injEq] at h
          refine ⟨hlen, rfl, ?_⟩
          rw [← h, e3, e2]
          simp
  · simp [hlen] at h

theorem init_new_consistent {m : List (List Nat)} {coords : List (List String)}
    {rate delay err : String} {verb : Int} {proto : String}
    {stod : String → Option StollError} {mk : List String → List (Ipv4Address × Nat)}
    {s : NS3Netsim}
    (h : NS3Netsim.new.init m coords rate delay err verb proto stod mk = .ok s)
    (hp : proto = "tcp" ∨ proto = "udp") :
    Consistent s ∧ s.nodeServerList = [] ∧ s.arrayAppConnections = [] ∧
      s.tcpOrUdp = proto ∧ s.sinkPort = 3030 := by
  obtain ⟨_, _, hs⟩ := init_ok_fields h
  rw [hs]
  simp [Consistent, NS3Netsim.new, sort_nil, unique_nil, hp, serverApps, clientApps]

theorem sampleFresh_init :
    NS3Netsim.new.init sampleMatrix sampleCoords "512Kbps" "15ms" "0.0001" 0 "tcp"
      sampleStod sampleMap = .ok sampleFresh := by
  rfl

theorem length_eq_dedup_length {α : Type} [DecidableEq α] {l k : List α} (hl : l.Nodup)
    (h : ∀ a, a ∈ l ↔ a ∈ k) : l.length = k.dedup.length := by
  apply List.Perm.length_eq
  rw [List.perm_ext_iff_of_nodup hl (List.nodup_dedup k)]
  intro a
  rw [h a, List.mem_dedup]

theorem recordOf_injective : Function.Injective recordOf := by
  intro a b h
  simp [recordOf] at h
  exact Prod.ext h.1 h.2

/-- C2: `create` instantiates one server application per distinct server node.
On a record `init` has just returned for protocol "tcp" or "udp", after every
sequence of `create` calls that returns, the number of server applications
installed (on the nodes, and in `allApplications`) is the number of distinct
server names in the calls, each of those names is on the server list exactly
once, and the list holds no other name.  The sequence returns whenever every
call names a node as client and a node with a link as server. -/
theorem create_one_server_per_distinct_server (m : List (List Nat))
    (coords : List (List String)) (rate delay err : String) (verb : Int) (proto : String)
    (stod : String → Option StollError) (mk : List String → List (Ipv4Address × Nat))
    (s0 : NS3Netsim)
    (hinit : NS3Netsim.new.init m coords rate delay err verb proto stod mk = .ok s0)
    (hp : proto = "tcp" ∨ proto = "udp") (calls : List (String × String)) :
    (∀ s, s0.createAll calls = .ok s →
      (serverApps s.installed).length = ((calls.map Prod.snd).dedup).length ∧
      (serverApps s.allApplications).length = ((calls.map Prod.snd).dedup).length ∧
      (∀ name ∈ calls.map Prod.snd, s.nodeServerList.count name = 1) ∧
      (∀ name ∈ s.nodeServerList, name ∈ calls.map Prod.snd)) ∧
    ((∀ call ∈ calls, s0.canCreate call.1 call.2 = true) →
      ∃ s, s0.createAll calls = .ok s) := by
  obtain ⟨hc0, hs0, _⟩ := init_new_consistent hinit hp
  refine ⟨?_, createAll_returns calls s0 hc0⟩
  intro s hs
  obtain ⟨hc, hmem, _⟩ := createAll_consistent calls s0 s hc0 hs
  have hmem1 : ∀ x, x ∈ s.nodeServerList ↔ x ∈ calls.map Prod.snd := by
    intro x
    rw [hmem x, hs0]
    simp
  obtain ⟨_, hnd, _, _, hsa, hsi, _, _⟩ := hc
  have hlen := length_eq_dedup_length hnd hmem1
  refine ⟨by rw [hsi, hlen], by rw [hsa, hlen], ?_, ?_⟩
  · intro name hname
    exact List.count_eq_one_of_mem hnd ((hmem1 name).2 hname)
  · intro name hname
    exact (hmem1 name).1 hname

/-- C2 on the sample files and the four sample calls. -/
theorem create_one_server_per_distinct_server_witness :
    (NS3Netsim.new.init sampleMatrix sampleCoords "512Kbps" "15ms" "0.0001" 0 "tcp"
        sampleStod sampleMap = .ok sampleFresh ∧
      ("tcp" = "tcp" ∨ "tcp" = "udp") ∧
      ∀ call ∈ sampleCalls, sampleFresh.canCreate call.1 call.2 = true) ∧
    ∃ s, sampleFresh.createAll sampleCalls = .ok s ∧
      (serverApps s.installed).length = ((sampleCalls.map Prod.snd).dedup).length ∧
      (serverApps s.allApplications).length = ((sampleCalls.map Prod.snd).dedup).length ∧
      (∀ name ∈ sampleCalls.map Prod.snd, s.nodeServerList.count name = 1) ∧
      (∀ name ∈ s.nodeServerList, name ∈ sampleCalls.map Prod.snd) :=
  ⟨⟨rfl, Or.inl rfl, by decide⟩,
    ((create_one_server_per_distinct_server sampleMatrix sampleCoords "512Kbps" "15ms"
        "0.0001" 0 "tcp" sampleStod sampleMap sampleFresh rfl (Or.inl rfl) sampleCalls).2
      (by decide)).imp
      (fun s hs =>
        ⟨hs, (create_one_server_per_distinct_server sampleMatrix sampleCoords "512Kbps" "15ms"
          "0.0001" 0 "tcp" sampleStod sampleMap sampleFresh rfl (Or.inl rfl) sampleCalls).1
            s hs⟩)⟩

theorem create_new_client (self : NS3Netsim) (client server : String)
    (hp : self.tcpOrUdp = "tcp" ∨ self.tcpOrUdp = "udp")
    (h : connectionExists self.arrayAppConnections client server = false)
    (hcan : self.canCreate client server = true) :
    ∃ s, self.create client server = .ok s ∧
      clientApps s.installed =
        clientApps self.installed ++ [clientAppOf self client server] ∧
      clientApps s.allApplications =
        clientApps self.allApplications ++ [clientAppOf self client server] := by
  refine ⟨created self client server, create_new_ok self client server hp h hcan, ?_, ?_⟩
  · have := clientApps_newApps self client server hp
    simp only [clientApps] at this
    simp [created, clientApps, this]
  · have := clientApps_newApps self client server hp
    simp only [clientApps] at this
    simp [created, clientApps, this]

/-- C3 as stated fails where the server has no link.  On the topology with
the one link A - S1, which `init` accepts, `create ("A", "S2")` is a call for a
pair not created before; it installs the server application on S2 and then
ends the process in `GetAddress (1,0)`, with no client application
installed. -/
theorem create_unlinked_server_no_client :
    NS3Netsim.new.init sampleMatrixOneLink sampleCoords "512Kbps" "15ms" "0.0001" 0 "tcp"
      sampleStod sampleMap = .ok sampleOneLink ∧
    connectionExists sampleOneLink.arrayAppConnections "A" "S2" = false ∧
    sampleOneLink.create "A" "S2" = .error (Abort.noInterface,
      { sampleOneLink with
        arrayAppConnections := [["A", "S2"]]
        nodeServerList := ["S2"]
        allApplications := [⟨AppClass.MultiClientTcpServer, "S2", ⟨Ipv4Address.any, 3030⟩⟩]
        installed := [⟨AppClass.MultiClientTcpServer, "S2", ⟨Ipv4Address.any, 3030⟩⟩] }) ∧
    clientApps [(⟨AppClass.MultiClientTcpServer, "S2", ⟨Ipv4Address.any, 3030⟩⟩ :
      Application)] = [] := by
  refine ⟨rfl, by decide, rfl, by decide⟩

/-- C3 as amended: `create` instantiates one client application per call for a
pair it can serve.  On a record reached from a fresh `init` with protocol "tcp"
or "udp" by a sequence of `create` calls that each name a node as client and a
node with a link as server, the sequence returns, and a `create (client,
server)` for such a pair that is not among those calls returns and adds
exactly one client application, at the end of the client applications: of the
client class of the protocol, on the client node, with the address of the
server (its interface 1, port `sinkPort`) as remote, whether or not the server
was named before.  After the sequence the number of client applications is
the number of distinct pairs called. -/
theorem create_one_client_per_call (m : List (List Nat)) (coords : List (List String))
    (rate delay err : String) (verb : Int) (proto : String)
    (stod : String → Option StollError) (mk : List String → List (Ipv4Address × Nat))
    (s0 : NS3Netsim)
    (hinit : NS3Netsim.new.init m coords rate delay err verb proto stod mk = .ok s0)
    (hp : proto = "tcp" ∨ proto = "udp") (calls : List (String × String))
    (hcalls : ∀ call ∈ calls, s0.canCreate call.1 call.2 = true) :
    ∃ s, s0.createAll calls = .ok s ∧
      (clientApps s.installed).length = calls.dedup.length ∧
      (clientApps s.allApplications).length = calls.dedup.length ∧
      ∀ client server, (client, server) ∉ calls → s0.canCreate client server = true →
        ∃ s1, s.create client server = .ok s1 ∧
          clientApps s1.installed = clientApps s.installed ++
            [⟨if proto = "tcp" then AppClass.TcpClient else AppClass.CustomUdpClient,
              client, ⟨Ipv4Address.iface server 1, 3030⟩⟩] ∧
          clientApps s1.allApplications = clientApps s.allApplications ++
            [⟨if proto = "tcp" then AppClass.TcpClient else AppClass.CustomUdpClient,
              client, ⟨Ipv4Address.iface server 1, 3030⟩⟩] := by
  obtain ⟨hc0, _, hr0, ht0, hk0⟩ := init_new_consistent hinit hp
  obtain ⟨s, hs⟩ := createAll_returns calls s0 hc0 hcalls
  obtain ⟨hc, _, hmem, ht, hk, hcan⟩ := createAll_consistent calls s0 s hc0 hs
  have hmem1 : ∀ r, r ∈ s.arrayAppConnections ↔ r ∈ calls.map recordOf := by
    intro r
    rw [hmem r, hr0]
    simp
  obtain ⟨hps, _, hnd, hrec, _, _, hca, hci⟩ := hc
  have hlen : s.arrayAppConnections.length = calls.dedup.length := by
    rw [length_eq_dedup_length hnd hmem1, List.dedup_map_of_injective recordOf_injective,
      List.length_map]
  have hproto : s.tcpOrUdp = proto ∧ s.sinkPort = 3030 := ⟨ht.trans ht0, hk.trans hk0⟩
  refine ⟨s, hs, by rw [hci, hlen], by rw [hca, hlen], ?_⟩
  intro client server hnew hcan0
  have hne : connectionExists s.arrayAppConnections client server = false := by
    rw [← Bool.not_eq_true]
    intro hex
    have hin := pair_of_exists (fun rec hr => by
      obtain ⟨a, b, hab, _⟩ := hrec rec hr
      exact ⟨a, b, hab⟩) hex
    rw [hmem1] at hin
    obtain ⟨call, hcall, heq⟩ := List.mem_map.1 hin
    have : call = (client, server) := recordOf_injective heq
    exact hnew (this ▸ hcall)
  obtain ⟨s1, h1, hi, ha⟩ := create_new_client s client server hps hne
    (by rw [hcan]; exact hcan0)
  refine ⟨s1, h1, ?_, ?_⟩
  · rw [hi]; simp [clientAppOf, clientClass, hproto.1, hproto.2]
  · rw [ha]; simp [clientAppOf, clientClass, hproto.1, hproto.2]

/-- C3 as amended, on the sample files and the four sample calls. -/
theorem create_one_client_per_call_witness :
    (NS3Netsim.new.init sampleMatrix sampleCoords "512Kbps" "15ms" "0.0001" 0 "tcp"
        sampleStod sampleMap = .ok sampleFresh ∧
      ("tcp" = "tcp" ∨ "tcp" = "udp") ∧
      ∀ call ∈ sampleCalls, sampleFresh.canCreate call.1 call.2 = true) ∧
    ∃ s, sampleFresh.createAll sampleCalls = .ok s ∧
      (clientApps s.installed).length = sampleCalls.dedup.length ∧
      (clientApps s.allApplications).length = sampleCalls.dedup.length ∧
      ∀ client server, (client, server) ∉ sampleCalls →
        sampleFresh.canCreate client server = true →
        ∃ s1, s.create client server = .ok s1 ∧
          clientApps s1.installed = clientApps s.installed ++
            [⟨if "tcp" = "tcp" then AppClass.TcpClient else AppClass.CustomUdpClient,
              client, ⟨Ipv4Address.iface server 1, 3030⟩⟩] ∧
          clientApps s1.allApplications = clientApps s.allApplications ++
            [⟨if "tcp" = "tcp" then AppClass.TcpClient else AppClass.CustomUdpClient,
              client, ⟨Ipv4Address.iface server 1, 3030⟩⟩] :=
  ⟨⟨rfl, Or.inl rfl, by decide⟩,
    create_one_client_per_call sampleMatrix sampleCoords "512Kbps" "15ms" "0.0001" 0 "tcp"
      sampleStod sampleMap sampleFresh rfl (Or.inl rfl) sampleCalls (by decide)⟩

/-! ## Facts about get_data -/

theorem get_data_snoc (self : NS3Netsim) (q : List DataXCHG) (m : DataXCHG)
    (src dst val_v val_t : String) :
    ({ self with dataXchgOutput := q ++ [m] } : NS3Netsim).get_data src dst val_v val_t =
      { res := 1
        self := { self with dataXchgOutput := q }
        src := m.src
        dst := m.dst
        val_v := m.val
        val_t := to_string m.time } := by
  simp [NS3Netsim.get_data]

theorem get_data_nil (self : NS3Netsim) (src dst val_v val_t : String) :
    ({ self with dataXchgOutput := [] } : NS3Netsim).get_data src dst val_v val_t =
      { res := 0
        self := { self with dataXchgOutput := [] }
        src := src
        dst := dst
        val_v := val_v
        val_t := val_t } := by
  simp [NS3Netsim.get_data]

theorem drain_append (self : NS3Netsim) (q ms : List DataXCHG) :
    ({ self with dataXchgOutput := q ++ ms } : NS3Netsim).drain ms.length =
      (ms.reverse.map DataXCHG.rendered, { self with dataXchgOutput := q }) := by
  induction ms using List.reverseRecOn with
  | nil => simp [NS3Netsim.drain]
  | append_singleton ms m ih =>
    rw [List.length_append, List.length_singleton, NS3Netsim.drain, ← List.append_assoc,
      get_data_snoc]
    simp [ih, DataXCHG.rendered]

/-- C4: `get_data` is a stack pop on the output queue.  On a queue that ends in
the message `m` (the one received last) it returns 1, sets the four arguments
to the source, destination and value of `m` and its time as a decimal string,
and leaves the queue without `m`, the messages before it in their order.  On
the empty queue it returns 0 and leaves the queue and the four arguments as
they were.  So `n` calls on a queue whose last `n` messages came in as
`m1..mn` hand them out as `mn..m1` and leave what was queued before them. -/
theorem get_data_lifo (self : NS3Netsim) (q ms : List DataXCHG) (m : DataXCHG)
    (src dst val_v val_t : String) :
    ({ self with dataXchgOutput := q ++ [m] } : NS3Netsim).get_data src dst val_v val_t =
      { res := 1
        self := { self with dataXchgOutput := q }
        src := m.src
        dst := m.dst
        val_v := m.val
        val_t := to_string m.time } ∧
    ({ self with dataXchgOutput := [] } : NS3Netsim).get_data src dst val_v val_t =
      { res := 0
        self := { self with dataXchgOutput := [] }
        src := src
        dst := dst
        val_v := val_v
        val_t := val_t } ∧
    ({ self with dataXchgOutput := q ++ ms } : NS3Netsim).drain ms.length =
      (ms.reverse.map DataXCHG.rendered, { self with dataXchgOutput := q }) :=
  ⟨get_data_snoc self q m src dst val_v val_t, get_data_nil self src dst val_v val_t,
    drain_append self q ms⟩

/-! ## Facts about schedule -/

theorem schedule_dst_irrelevant (self : NS3Netsim) (src dst dst1 val val_time : String) :
    self.schedule src dst val val_time = self.schedule src dst1 val val_time := rfl

/-- C5, the code at the failing input.  After `create ("A", "S1")` and
`create ("A", "S2")` on a fresh "tcp" adapter, node "A" has a client application
with remote "S2"; `schedule ("A", "S2", "21.5", "10")` hands the payload to the
client application whose remote is "S1". -/
theorem schedule_picks_first_client :
    sampleFresh.createAll [("A", "S1"), ("A", "S2")] = .ok sampleTwoServers ∧
    (⟨AppClass.TcpClient, "A", ⟨Ipv4Address.iface "S2" 1, 3030⟩⟩ : Application) ∈
      sampleTwoServers.installed ∧
    sampleTwoServers.schedule "A" "S2" "21.5" "10" = .ok
      { sampleTwoServers with
        transmits :=
          [(⟨AppClass.TcpClient, "A", ⟨Ipv4Address.iface "S1" 1, 3030⟩⟩, "21.5", "10")] } ∧
    Ipv4Address.iface "S1" 1 ≠ Ipv4Address.iface "S2" 1 := by
  refine ⟨rfl, by decide, rfl, by decide⟩

/-! ## Facts about the receive handler -/

theorem take_indexOf (c : Char) (l : List Char) :
    l.take (l.indexOf c) = l.takeWhile (fun x => x ≠ c) := by
  induction l with
  | nil => simp
  | cons a l ih =>
    by_cases h : a = c
    · simp [h, List.takeWhile_cons]
    · have h1 : ¬ (a == c) = true := by simpa using h
      simp [List.indexOf_cons, h, h1, List.takeWhile_cons, ih]

theorem drop_indexOf_succ (c : Char) (l : List Char) :
    l.drop (l.indexOf c + 1) = (l.dropWhile (fun x => x ≠ c)).drop 1 := by
  induction l with
  | nil => simp
  | cons a l ih =>
    by_cases h : a = c
    · simp [h, List.dropWhile_cons]
    · have h1 : ¬ (a == c) = true := by simpa using h
      simp [List.indexOf_cons, h, h1, List.dropWhile_cons, ih]

theorem recMessage_length_le (packet behind : List Char) :
    (recMessage packet behind).length ≤ packet.length := by
  simp [recMessage]

theorem substr_val (msg : List Char) (h : msg.length < 2 ^ 32) :
    substr msg 0 (find msg '&') = some (valPart msg) := by
  have hn : msg.length ≤ npos := by
    have : (2 : Nat) ^ 32 ≤ npos := by decide
    omega
  by_cases hc : '&' ∈ msg
  · simp [substr, find, hc, valPart, take_indexOf]
  · have hall : ∀ x ∈ msg, x ≠ '&' := fun x hx hxe => hc (hxe ▸ hx)
    have htw : msg.takeWhile (fun c => c ≠ '&') = msg := by
      rw [List.takeWhile_eq_self_iff]
      intro x hx
      simpa using hall x hx
    simp only [substr, find, hc, if_false, valPart, htw]
    rw [if_neg (Nat.not_lt_zero _), List.drop_zero, List.take_of_length_le hn]

theorem substr_time (msg : List Char) (h : msg.length < 2 ^ 32) :
    substr msg ((find msg '&' + 1) % 2 ^ 64) npos = some (timePart msg) := by
  have hn : msg.length ≤ npos := by
    have : (2 : Nat) ^ 32 ≤ npos := by decide
    omega
  by_cases hc : '&' ∈ msg
  · have hlt : msg.indexOf '&' < msg.length := List.indexOf_lt_length.2 hc
    have hsmall : msg.indexOf '&' + 1 < 2 ^ 64 := by
      have : (2 : Nat) ^ 32 < 2 ^ 64 := by decide
      omega
    have hlen : (msg.drop (msg.indexOf '&' + 1)).length ≤ npos := by
      rw [List.length_drop]
      omega
    simp only [find, hc, if_true, Nat.mod_eq_of_lt hsmall, substr, timePart]
    rw [if_neg (by omega), List.take_of_length_le hlen, drop_indexOf_succ]
  · have h0 : (npos + 1) % 2 ^ 64 = 0 := by decide
    simp only [find, hc, if_false, h0, substr, timePart]
    rw [if_neg (Nat.not_lt_zero _), List.drop_zero, List.take_of_length_le hn]

theorem handler_eq (self : NS3Netsim) (now : Int) (socket : Socket) (behind : List Char)
    (h : socket.packet.length < 2 ^ 32) :
    ExtractInformationFromPacketAndSendToUpperLayer self now socket behind =
      match stoll (timePart (recMessage socket.packet behind)) with
      | .ok t => .ok
          { self with
            mapIpv4NodeId := (lookupOrInsert self.mapIpv4NodeId socket.fromAddress).2
            dataXchgOutput := self.dataXchgOutput ++
              [receivedRecord self socket (recMessage socket.packet behind) t] }
      | .error StollError.invalid_argument => .error (Abort.stollInvalidArgument,
          { self with
            mapIpv4NodeId := (lookupOrInsert self.mapIpv4NodeId socket.fromAddress).2 })
      | .error StollError.out_of_range => .error (Abort.stollOutOfRange,
          { self with
            mapIpv4NodeId := (lookupOrInsert self.mapIpv4NodeId socket.fromAddress).2 }) := by
  have hlen : (recMessage socket.packet behind).length < 2 ^ 32 :=
    lt_of_le_of_lt (recMessage_length_le _ _) h
  unfold ExtractInformationFromPacketAndSendToUpperLayer
  simp only [substr_val _ hlen, substr_time _ hlen]
  cases hst : stoll (timePart (recMessage socket.packet behind)) with
  | ok t => simp [receivedRecord, NS3Netsim.FindName]
  | error e => cases e <;> simp

/-- C6 as stated fails: with the clock at 5 ms the packet "v&3" is queued with
time 3. -/
theorem receive_time_not_clock :
    ExtractInformationFromPacketAndSendToUpperLayer sampleFresh 5
        (sampleSocket ['v', '&', '3']) [] =
      .ok { sampleFresh with dataXchgOutput := [⟨"A", "S1", "v", 3⟩] } ∧
    (3 : Int) ≠ 5 := by
  refine ⟨rfl, by decide⟩

/-- C6 as amended: the timestamp of a drained message is the time written in
the packet.  For every packet received (its size fits 32 bits) the handler
appends a record exactly when `stoll` reads a number behind the first '&' of
the message (in the whole message when it has no '&'); the time field of the
record is that number, and the simulation clock at the moment of reception
has no influence on the outcome. -/
theorem receive_time_is_payload_time (self : NS3Netsim) (now : Int) (socket : Socket)
    (behind : List Char) (hsize : socket.packet.length < 2 ^ 32) :
    (∀ now1, ExtractInformationFromPacketAndSendToUpperLayer self now1 socket behind =
      ExtractInformationFromPacketAndSendToUpperLayer self now socket behind) ∧
    (∀ t, stoll (timePart (recMessage socket.packet behind)) = .ok t →
      ∃ s rec, ExtractInformationFromPacketAndSendToUpperLayer self now socket behind = .ok s ∧
        s.dataXchgOutput = self.dataXchgOutput ++ [rec] ∧ rec.time = t) ∧
    (∀ s, ExtractInformationFromPacketAndSendToUpperLayer self now socket behind = .ok s →
      ∃ t rec, stoll (timePart (recMessage socket.packet behind)) = .ok t ∧
        s.dataXchgOutput = self.dataXchgOutput ++ [rec] ∧ rec.time = t) := by
  refine ⟨fun now1 => rfl, ?_, ?_⟩
  · intro t ht
    rw [handler_eq self now socket behind hsize, ht]
    exact ⟨_, _, rfl, rfl, rfl⟩
  · intro s hs
    rw [handler_eq self now socket behind hsize] at hs
    cases hst : stoll (timePart (recMessage socket.packet behind)) with
    | ok t =>
      rw [hst] at hs
      simp only [Except.ok.injEq] at hs
      subst hs
      exact ⟨t, _, rfl, rfl, rfl⟩
    | error e =>
      rw [hst] at hs
      cases e <;> simp at hs

/-- C6 as amended, at the packet "v&3" received with the clock at 5 ms. -/
theorem receive_time_is_payload_time_witness :
    (sampleSocket ['v', '&', '3']).packet.length < 2 ^ 32 ∧
    stoll (timePart (recMessage (sampleSocket ['v', '&', '3']).packet [])) = .ok 3 ∧
    ∃ s rec, ExtractInformationFromPacketAndSendToUpperLayer sampleFresh 5
        (sampleSocket ['v', '&', '3']) [] = .ok s ∧
      s.dataXchgOutput = sampleFresh.dataXchgOutput ++ [rec] ∧ rec.time = 3 :=
  ⟨by decide, rfl,
    (receive_time_is_payload_time sampleFresh 5 (sampleSocket ['v', '&', '3']) []
      (by decide)).2.1 3 rfl⟩

/-- C9 as stated fails at a value with a zero byte.  The value "a", zero byte,
"b" holds no '&'; the packet made of it, '&' and "5" ends the process in `stoll`
(`std::invalid_argument`) with nothing appended.  The value "7", zero byte
holds no '&' either; its packet with time 5 is queued with value "7" and
time 7. -/
theorem receive_cut_at_zero_byte :
    ('&' ∉ ['a', Char.ofNat 0, 'b'] ∧
      ExtractInformationFromPacketAndSendToUpperLayer sampleFresh 0
          (sampleSocket (['a', Char.ofNat 0, 'b'] ++ '&' :: (to_string 5).data)) [] =
        .error (Abort.stollInvalidArgument, sampleFresh)) ∧
    ('&' ∉ ['7', Char.ofNat 0] ∧
      ExtractInformationFromPacketAndSendToUpperLayer sampleFresh 0
          (sampleSocket (['7', Char.ofNat 0] ++ '&' :: (to_string 5).data)) [] =
        .ok { sampleFresh with dataXchgOutput := [⟨"A", "S1", "7", 7⟩] }) := by
  refine ⟨⟨by decide, rfl⟩, ⟨by decide, rfl⟩⟩

theorem foldlM_error_kind {α : Type} (f : NS3Netsim → α → Result) (P : Abort → Prop)
    (hf : ∀ s a e s1, f s a = .error (e, s1) → P e) (l : List α) :
    ∀ s e s1, l.foldlM f s = .error (e, s1) → P e := by
  induction l with
  | nil =>
    intro s e s1 h
    simp [List.foldlM_nil, pure, Except.pure] at h
  | cons a l ih =>
    intro s e s1 h
    rw [List.foldlM_cons] at h
    cases hstep : f s a with
    | error x =>
      rw [hstep] at h
      have hx : x = (e, s1) := by
        simpa [bind, Except.bind] using h
      rw [hx] at hstep
      exact hf s a e s1 hstep
    | ok s2 =>
      rw [hstep] at h
      exact ih s2 e s1 h

theorem createNodes_error_kind {s s1 : NS3Netsim} {coords : List (List String)} {e : Abort}
    (h : s.createNodes coords = .error (e, s1)) : e = Abort.namesAddFailed := by
  refine foldlM_error_kind (NS3Netsim.nameNode coords) (fun e => e = Abort.namesAddFailed)
    ?_ _ _ e s1 h
  intro s a e s1 hstep
  unfold NS3Netsim.nameNode at hstep
  split at hstep
  · cases hstep
  · simp only [Except.error.injEq, Prod.mk.injEq] at hstep
    exact hstep.1.symm

theorem linkAll_error_kind {s s1 : NS3Netsim} {m : List (List Nat)} {e : Abort}
    (h : s.linkAll m = .error (e, s1)) : e = Abort.nodeIndexOutOfRange := by
  refine foldlM_error_kind (fun s i => s.linkRow (m.getD i []) i)
    (fun e => e = Abort.nodeIndexOutOfRange) ?_ _ _ e s1 h
  intro s i e s1 hrow
  refine foldlM_error_kind (NS3Netsim.linkStep (m.getD i []) i)
    (fun e => e = Abort.nodeIndexOutOfRange) ?_ _ _ e s1 hrow
  intro s j e s1 hstep
  simp only [NS3Netsim.linkStep] at hstep
  split at hstep
  · split at hstep
    · cases hstep
    · simp only [Except.error.injEq, Prod.mk.injEq] at hstep
      exact hstep.1.symm
  · cases hstep

theorem init_error_kind {self s : NS3Netsim} {m : List (List Nat)}
    {coords : List (List String)} {rate delay err : String} {verb : Int} {proto : String}
    {stod : String → Option StollError} {mk : List String → List (Ipv4Address × Nat)}
    {e : Abort} (hlen : m.length = coords.length)
    (h : self.init m coords rate delay err verb proto stod mk = .error (e, s)) :
    e = Abort.namesAddFailed ∨ e = Abort.nodeIndexOutOfRange ∨
      e = Abort.stodInvalidArgument ∨ e = Abort.stodOutOfRange := by
  unfold NS3Netsim.init at h
  simp only [hlen, ne_eq, not_true_eq_false, if_false] at h
  cases h2 : NS3Netsim.createNodes
      { self with allApplications := [], verbose := verb, tcpOrUdp := proto,
                  LinkRate := rate, LinkDelay := delay, LinkErrorRate := err,
                  linkCount := 0, sinkPort := 3030 } coords with
  | error x =>
    simp only [h2, bind, Except.bind, Except.error.injEq] at h
    rw [h] at h2
    exact Or.inl (createNodes_error_kind h2)
  | ok s2 =>
    simp only [h2, bind, Except.bind] at h
    cases h3 : s2.linkAll m with
    | error x =>
      simp only [h3, Except.error.injEq] at h
      rw [h] at h3
      exact Or.inr (Or.inl (linkAll_error_kind h3))
    | ok s3 =>
      simp only [h3] at h
      cases hst : stod s3.LinkErrorRate with
      | none => simp [hst, pure, Except.pure] at h
      | some x =>
        cases x
        · simp only [hst, Except.error.injEq, Prod.mk.injEq] at h
          exact Or.inr (Or.inr (Or.inl h.1.symm))
        · simp only [hst, Except.error.injEq, Prod.mk.injEq] at h
          exact Or.inr (Or.inr (Or.inr h.1.symm))

/-- C7: `init` aborts on mismatched topology and coordinate sizes.  Whenever
the number of matrix rows differs from the number of coordinate lines, `init`
ends in the fatal error that reports the two numbers, with the node container
and the link list as they were before the call and no link counted; when the
two numbers are equal `init` does not end in that error. -/
theorem init_size_check (self : NS3Netsim) (m : List (List Nat))
    (coords : List (List String)) (rate delay err : String) (verb : Int) (proto : String)
    (stod : String → Option StollError) (mk : List String → List (Ipv4Address × Nat)) :
    (m.length ≠ coords.length →
      ∃ s, self.init m coords rate delay err verb proto stod mk =
          .error (Abort.sizeMismatch coords.length m.length, s) ∧
        s.nodes = self.nodes ∧ s.p2pDevices = self.p2pDevices ∧ s.linkCount = 0) ∧
    (m.length = coords.length →
      ∀ a b s, self.init m coords rate delay err verb proto stod mk ≠
        .error (Abort.sizeMismatch a b, s)) := by
  constructor
  · intro h
    exact ⟨{ self with allApplications := [], verbose := verb, tcpOrUdp := proto,
                       LinkRate := rate, LinkDelay := delay, LinkErrorRate := err,
                       linkCount := 0, sinkPort := 3030 },
      by simp [NS3Netsim.init, h], rfl, rfl, rfl⟩
  · intro h a b s hab
    rcases init_error_kind h hab with h1 | h1 | h1 | h1 <;> cases h1

/-- C7 at a matrix of three rows with a table of two lines, and with the table
of three lines. -/
theorem init_size_check_witness :
    (sampleMatrix.length ≠ (sampleCoords.take 2).length ∧
      ∃ s, NS3Netsim.new.init sampleMatrix (sampleCoords.take 2) "512Kbps" "15ms" "0.0001" 0
            "tcp" sampleStod sampleMap =
          .error (Abort.sizeMismatch (sampleCoords.take 2).length sampleMatrix.length, s) ∧
        s.nodes = NS3Netsim.new.nodes ∧ s.p2pDevices = NS3Netsim.new.p2pDevices ∧
        s.linkCount = 0) ∧
    (sampleMatrix.length = sampleCoords.length ∧
      ∀ a b s, NS3Netsim.new.init sampleMatrix sampleCoords "512Kbps" "15ms" "0.0001" 0
        "tcp" sampleStod sampleMap ≠ .error (Abort.sizeMismatch a b, s)) :=
  ⟨⟨by decide,
      (init_size_check NS3Netsim.new sampleMatrix (sampleCoords.take 2) "512Kbps" "15ms"
        "0.0001" 0 "tcp" sampleStod sampleMap).1 (by decide)⟩,
    ⟨by decide,
      (init_size_check NS3Netsim.new sampleMatrix sampleCoords "512Kbps" "15ms" "0.0001" 0
        "tcp" sampleStod sampleMap).2 (by decide)⟩⟩

/-- C8: an unknown transport protocol string is fatal.  With a protocol
selector other than "tcp" and "udp", a `create` call for a pair that has no
connection record ends in the fatal error "Invalid protocol passed in": raised
in `setUpServer` when the server is not on the server list, and in
`setUpClient` when it is on the list (as a node with an interface 1, which is
what every server that `create` has put on the list is); at that moment no
application has been installed.  With "tcp" or "udp" no `create` call ends in
that error, neither in `setUpServer` nor in `setUpClient`. -/
theorem create_unknown_protocol (self : NS3Netsim) (client server : String) :
    (self.tcpOrUdp ≠ "tcp" → self.tcpOrUdp ≠ "udp" →
      connectionExists self.arrayAppConnections client server = false →
      (server ∈ self.nodeServerList →
        ∃ dstNode, self.Find server = some dstNode ∧ self.hasInterface1 dstNode = true) →
      ∃ s, self.create client server =
          .error (if server ∈ self.nodeServerList then Abort.invalidProtocolClient
            else Abort.invalidProtocolServer, s) ∧
        s.installed = self.installed ∧ s.allApplications = self.allApplications) ∧
    (self.tcpOrUdp = "tcp" ∨ self.tcpOrUdp = "udp" →
      ∀ s, self.create client server ≠ .error (Abort.invalidProtocolServer, s) ∧
        self.create client server ≠ .error (Abort.invalidProtocolClient, s)) := by
  constructor
  · intro ht hu hnew hlisted
    by_cases hs : server ∈ self.nodeServerList
    · obtain ⟨dstNode, hfind, hif⟩ := hlisted hs
      simp only [NS3Netsim.Find] at hfind
      simp only [NS3Netsim.hasInterface1] at hif
      exact ⟨{ self with arrayAppConnections := self.arrayAppConnections ++ [[client, server]] },
        by simp [NS3Netsim.create, hnew, hs, ht, hu, NS3Netsim.setUpClient, NS3Netsim.Find,
          NS3Netsim.hasInterface1, hfind, hif, bind, Except.bind, pure, Except.pure],
        rfl, rfl⟩
    · exact ⟨{ self with arrayAppConnections := self.arrayAppConnections ++ [[client, server]] },
        by simp [NS3Netsim.create, hnew, hs, ht, hu, NS3Netsim.setUpServer,
          bind, Except.bind], rfl, rfl⟩
  · intro hp s
    have hne : ("udp" : String) ≠ "tcp" := by decide
    by_cases hex : connectionExists self.arrayAppConnections client server = true
    · rw [create_of_exists self client server hex]
      exact ⟨fun h => (by cases h), fun h => (by cases h)⟩
    · simp only [Bool.not_eq_true] at hex
      constructor <;> intro hok <;>
        rcases hp with hp | hp <;>
        cases hc : NamesFind self.nodes client <;>
        cases hfs : NamesFind self.nodes server <;>
        by_cases hl : server ∈ self.nodeServerList <;>
        simp [NS3Netsim.create, hex, hl, hp, hne, NS3Netsim.setUpServer,
          NS3Netsim.setUpClient, NS3Netsim.Install, NS3Netsim.install, NS3Netsim.Find,
          NS3Netsim.hasInterface1, hc, hfs, bind, Except.bind, pure, Except.pure] at hok <;>
        (split at hok <;> simp_all)

/-- C8 at a fresh record whose protocol selector is "sctp" (new server), at
the record with two servers and the selector changed to "sctp" (listed
server), and at the fresh "tcp" record. -/
theorem create_unknown_protocol_witness :
    (("sctp" : String) ≠ "tcp" ∧ ("sctp" : String) ≠ "udp" ∧
      connectionExists ({ sampleFresh with tcpOrUdp := "sctp" } : NS3Netsim).arrayAppConnections
        "A" "S1" = false ∧
      ("S1" ∉ ({ sampleFresh with tcpOrUdp := "sctp" } : NS3Netsim).nodeServerList) ∧
      ∃ s, ({ sampleFresh with tcpOrUdp := "sctp" } : NS3Netsim).create "A" "S1" =
          .error (if "S1" ∈ ({ sampleFresh with tcpOrUdp := "sctp" } : NS3Netsim).nodeServerList
            then Abort.invalidProtocolClient else Abort.invalidProtocolServer, s) ∧
        s.installed = sampleFresh.installed ∧ s.allApplications = sampleFresh.allApplications) ∧
    (connectionExists
        ({ sampleTwoServers with tcpOrUdp := "sctp" } : NS3Netsim).arrayAppConnections
        "S1" "S2" = false ∧
      ("S2" ∈ ({ sampleTwoServers with tcpOrUdp := "sctp" } : NS3Netsim).nodeServerList) ∧
      (∃ dstNode, ({ sampleTwoServers with tcpOrUdp := "sctp" } : NS3Netsim).Find "S2" =
          some dstNode ∧
        ({ sampleTwoServers with tcpOrUdp := "sctp" } : NS3Netsim).hasInterface1 dstNode
          = true) ∧
      ∃ s, ({ sampleTwoServers with tcpOrUdp := "sctp" } : NS3Netsim).create "S1" "S2" =
          .error (if "S2" ∈
              ({ sampleTwoServers with tcpOrUdp := "sctp" } : NS3Netsim).nodeServerList
            then Abort.invalidProtocolClient else Abort.invalidProtocolServer, s) ∧
        s.installed = sampleTwoServers.installed ∧
        s.allApplications = sampleTwoServers.allApplications) ∧
    ((sampleFresh.tcpOrUdp = "tcp" ∨ sampleFresh.tcpOrUdp = "udp") ∧
      ∀ s, sampleFresh.create "A" "S1" ≠ .error (Abort.invalidProtocolServer, s) ∧
        sampleFresh.create "A" "S1" ≠ .error (Abort.invalidProtocolClient, s)) :=
  ⟨⟨by decide, by decide, by decide, by decide,
      (create_unknown_protocol { sampleFresh with tcpOrUdp := "sctp" } "A" "S1").1
        (by decide) (by decide) (by decide) (fun h => absurd h (by decide))⟩,
    ⟨by decide, by decide, ⟨2, rfl, rfl⟩,
      (create_unknown_protocol { sampleTwoServers with tcpOrUdp := "sctp" } "S1" "S2").1
        (by decide) (by decide) (by decide) (fun _ => ⟨2, rfl, rfl⟩)⟩,
    ⟨Or.inl rfl, (create_unknown_protocol sampleFresh "A" "S1").2 (Or.inl rfl)⟩⟩

/-! ## Facts about the links of init -/

theorem mem_rowLinks (row : List Nat) (i a j : Nat) :
    (a, j) ∈ rowLinks row i ↔ a = i ∧ i ≤ j ∧ j < row.length ∧ row.getD j 0 = 1 := by
  simp only [rowLinks, List.mem_map, List.mem_filter, List.mem_range'_1, Prod.mk.injEq,
    decide_eq_true_eq]
  constructor
  · rintro ⟨k, ⟨⟨h1, h2⟩, h3⟩, rfl, rfl⟩
    exact ⟨rfl, h1, by omega, h3⟩
  · rintro ⟨rfl, h1, h2, h3⟩
    exact ⟨j, ⟨⟨h1, by omega⟩, h3⟩, rfl, rfl⟩

theorem nodup_rowLinks (row : List Nat) (i : Nat) : (rowLinks row i).Nodup := by
  unfold rowLinks
  refine List.Nodup.map ?_ ((List.nodup_range' _ _).filter _)
  intro a b h
  simpa using h

theorem mem_matrixLinks (m : List (List Nat)) (i j : Nat) :
    (i, j) ∈ matrixLinks m ↔
      i < m.length ∧ i ≤ j ∧ j < (m.getD i []).length ∧ entry m i j = 1 := by
  simp only [matrixLinks, List.mem_flatMap, List.mem_range, mem_rowLinks, entry]
  constructor
  · rintro ⟨k, hk, rfl, h⟩
    exact ⟨hk, h⟩
  · rintro ⟨hi, h⟩
    exact ⟨i, hi, rfl, h⟩

theorem nodup_matrixLinks (m : List (List Nat)) : (matrixLinks m).Nodup := by
  unfold matrixLinks
  rw [List.nodup_flatMap]
  refine ⟨fun i _ => nodup_rowLinks _ i, ?_⟩
  refine List.Pairwise.imp_of_mem ?_ (List.nodup_range m.length)
  intro a b _ _ hab
  intro p hpa hpb
  obtain ⟨x, y⟩ := p
  rw [mem_rowLinks] at hpa hpb
  exact hab (hpa.1.symm.trans hpb.1)

theorem count_one_eq_sum (row : List Nat) :
    row.count 1 = ∑ j in Finset.range row.length, if row.getD j 0 = 1 then 1 else 0 := by
  induction row with
  | nil => simp
  | cons x xs ih =>
    rw [List.length_cons, Finset.sum_range_succ', List.count_cons, ih]
    simp only [List.getD_cons_succ, List.getD_cons_zero, beq_iff_eq]

theorem sum_map_eq_sum (m : List (List Nat)) (f : List Nat → Nat) :
    (m.map f).sum = ∑ i in Finset.range m.length, f (m.getD i []) := by
  induction m with
  | nil => simp
  | cons x xs ih =>
    rw [List.length_cons, Finset.sum_range_succ', List.map_cons, List.sum_cons, ih]
    simp only [List.getD_cons_succ, List.getD_cons_zero]
    omega

theorem onesCount_eq_card (m : List (List Nat)) (hsq : ∀ row ∈ m, row.length = m.length) :
    onesCount m =
      (Finset.filter (fun p : Nat × Nat => entry m p.1 p.2 = 1)
        (Finset.range m.length ×ˢ Finset.range m.length)).card := by
  rw [Finset.card_filter, Finset.sum_product, onesCount, sum_map_eq_sum]
  refine Finset.sum_congr rfl ?_
  intro i hi
  rw [count_one_eq_sum]
  have hlen : (m.getD i []).length = m.length := by
    rw [Finset.mem_range] at hi
    apply hsq
    rw [List.getD_eq_getElem _ _ hi]
    exact List.getElem_mem _
  rw [hlen]
  rfl
theorem row_length_of_square (m : List (List Nat)) (hsq : ∀ row ∈ m, row.length = m.length)
    (i : Nat) (hi : i < m.length) : (m.getD i []).length = m.length := by
  apply hsq
  rw [List.getD_eq_getElem _ _ hi]
  exact List.getElem_mem _

theorem onesCount_eq_twice_links (m : List (List Nat))
    (hsq : ∀ row ∈ m, row.length = m.length)
    (hsym : ∀ i j, i < m.length → j < m.length → entry m i j = entry m j i)
    (hdiag : ∀ i, i < m.length → entry m i i = 0) :
    onesCount m = 2 * (matrixLinks m).length := by
  have hrow := row_length_of_square m hsq
  have hunion : Finset.filter (fun p : Nat × Nat => entry m p.1 p.2 = 1)
      (Finset.range m.length ×ˢ Finset.range m.length) =
      (matrixLinks m).toFinset ∪ (matrixLinks m).toFinset.image Prod.swap := by
    ext ⟨i, j⟩
    simp only [Finset.mem_filter, Finset.mem_product, Finset.mem_range, Finset.mem_union,
      Finset.mem_image, List.mem_toFinset, Prod.exists, Prod.swap_prod_mk, Prod.mk.injEq]
    constructor
    · rintro ⟨⟨hi, hj⟩, h1⟩
      rcases lt_trichotomy i j with hlt | heq | hgt
      · left
        rw [mem_matrixLinks]
        exact ⟨hi, hlt.le, by rw [hrow i hi]; exact hj, h1⟩
      · subst heq
        rw [hdiag i hi] at h1
        cases h1
      · right
        refine ⟨j, i, ?_, rfl, rfl⟩
        rw [mem_matrixLinks]
        exact ⟨hj, hgt.le, by rw [hrow j hj]; exact hi, by rw [← hsym i j hi hj]; exact h1⟩
    · rintro (h | ⟨a, b, h, rfl, rfl⟩)
      · rw [mem_matrixLinks] at h
        obtain ⟨hi, _, hj, h1⟩ := h
        rw [hrow i hi] at hj
        exact ⟨⟨hi, hj⟩, h1⟩
      · rw [mem_matrixLinks] at h
        obtain ⟨ha, _, hb, h1⟩ := h
        rw [hrow a ha] at hb
        exact ⟨⟨hb, ha⟩, by rw [hsym b a hb ha]; exact h1⟩
  have hdisj : Disjoint (matrixLinks m).toFinset
      ((matrixLinks m).toFinset.image Prod.swap) := by
    rw [Finset.disjoint_left]
    rintro ⟨i, j⟩ h1 h2
    simp only [Finset.mem_image, List.mem_toFinset, Prod.exists, Prod.swap_prod_mk,
      Prod.mk.injEq] at h1 h2
    obtain ⟨a, b, h, rfl, rfl⟩ := h2
    rw [mem_matrixLinks] at h1 h
    have hab : a = b := le_antisymm h.2.1 h1.2.1
    subst hab
    rw [hdiag a h.1] at h
    exact absurd h.2.2.2 (by decide)
  rw [onesCount_eq_card m hsq, hunion, Finset.card_union_of_disjoint hdisj,
    Finset.card_image_of_injective _ Prod.swap_injective,
    List.toFinset_card_of_nodup (nodup_matrixLinks m)]
  omega

/-- C10: the links `init` creates.  For every adjacency matrix `init` accepts,
that is, whenever `init` on a new adapter returns, `linkCount` is the number of
device pairs stored, no pair is stored twice, and the pairs stored are exactly
the index pairs `(i, j)` with `i` a row, `i <= j`, `j` inside row `i` and entry
`[i][j]` equal to 1: nothing below the diagonal, and `(i, i)` for a 1 on the
diagonal.  For a square symmetric matrix with a zero diagonal this number is
half the number of 1 entries. -/
theorem init_link_count (m : List (List Nat)) (coords : List (List String))
    (rate delay err : String) (verb : Int) (proto : String)
    (stod : String → Option StollError) (mk : List String → List (Ipv4Address × Nat))
    (s : NS3Netsim)
    (hacc : NS3Netsim.new.init m coords rate delay err verb proto stod mk = .ok s) :
    s.linkCount = s.p2pDevices.length ∧
    s.p2pDevices.Nodup ∧
    (∀ i j, (i, j) ∈ s.p2pDevices ↔
      i < m.length ∧ i ≤ j ∧ j < (m.getD i []).length ∧ entry m i j = 1) ∧
    ((∀ row ∈ m, row.length = m.length) →
      (∀ i, i < m.length → ∀ j, j < m.length → entry m i j = entry m j i) →
      (∀ i, i < m.length → entry m i i = 0) →
      2 * s.linkCount = onesCount m) := by
  obtain ⟨_, _, hs⟩ := init_ok_fields hacc
  have hl : s.linkCount = (matrixLinks m).length := by rw [hs]
  have hp : s.p2pDevices = matrixLinks m := by
    rw [hs]
    simp [NS3Netsim.new]
  refine ⟨by rw [hl, hp], by rw [hp]; exact nodup_matrixLinks m, ?_, ?_⟩
  · intro i j
    rw [hp]
    exact mem_matrixLinks m i j
  · intro hsq hsym hdiag
    have := onesCount_eq_twice_links m hsq (fun i j hi hj => hsym i hi j hj) hdiag
    rw [hl]
    omega

/-- C10 on the sample files: two links for four 1 entries. -/
theorem init_link_count_witness :
    (NS3Netsim.new.init sampleMatrix sampleCoords "512Kbps" "15ms" "0.0001" 0 "tcp"
        sampleStod sampleMap = .ok sampleFresh ∧
      (∀ row ∈ sampleMatrix, row.length = sampleMatrix.length) ∧
      (∀ i, i < sampleMatrix.length → ∀ j, j < sampleMatrix.length →
        entry sampleMatrix i j = entry sampleMatrix j i) ∧
      (∀ i, i < sampleMatrix.length → entry sampleMatrix i i = 0)) ∧
    sampleFresh.linkCount = sampleFresh.p2pDevices.length ∧
    2 * sampleFresh.linkCount = onesCount sampleMatrix :=
  ⟨⟨rfl, by decide, by decide, by decide⟩,
    (init_link_count sampleMatrix sampleCoords "512Kbps" "15ms" "0.0001" 0 "tcp"
      sampleStod sampleMap sampleFresh rfl).1,
    (init_link_count sampleMatrix sampleCoords "512Kbps" "15ms" "0.0001" 0 "tcp"
      sampleStod sampleMap sampleFresh rfl).2.2.2 (by decide) (by decide) (by decide)⟩

/-! ## Decimal strings and the payload format -/

theorem digitChar_facts (k : Nat) (hk : k < 10) :
    (Nat.digitChar k).isDigit = true ∧ (Nat.digitChar k).toNat - 48 = k ∧
    isspace (Nat.digitChar k) = false ∧ Nat.digitChar k ≠ '-' ∧ Nat.digitChar k ≠ '+' ∧
    Nat.digitChar k ≠ '&' ∧ Nat.digitChar k ≠ Char.ofNat 0 := by
  interval_cases k <;> decide

theorem digitsValue_append (l : List Char) (d : Char) :
    digitsValue (l ++ [d]) = 10 * digitsValue l + (d.toNat - 48) := by
  simp [digitsValue, List.foldl_append]

theorem toDigitsCore_spec (fuel : Nat) :
    ∀ n ds, n < fuel → ∃ l, Nat.toDigitsCore 10 fuel n ds = l ++ ds ∧ l ≠ [] ∧
      (∀ c ∈ l, IsDecimalDigit c) ∧ digitsValue l = n := by
  induction fuel with
  | zero => intro n ds h; omega
  | succ fuel ih =>
    intro n ds h
    have hmod : n % 10 < 10 := Nat.mod_lt _ (by decide)
    obtain ⟨_, hval, _⟩ := digitChar_facts (n % 10) hmod
    rw [Nat.toDigitsCore]
    by_cases h0 : n / 10 = 0
    · refine ⟨[Nat.digitChar (n % 10)], by simp [h0], by simp, ?_, ?_⟩
      · intro c hc
        rw [List.mem_singleton] at hc
        exact ⟨n % 10, hmod, hc⟩
      · simp only [digitsValue, List.foldl_cons, List.foldl_nil, hval]
        omega
    · have hlt : n / 10 < fuel := by omega
      obtain ⟨l, hl, _, hdig, hv⟩ := ih (n / 10) (Nat.digitChar (n % 10) :: ds) hlt
      refine ⟨l ++ [Nat.digitChar (n % 10)], by simp [h0, hl], by simp, ?_, ?_⟩
      · intro c hc
        rw [List.mem_append, List.mem_singleton] at hc
        rcases hc with hc | hc
        · exact hdig c hc
        · exact ⟨n % 10, hmod, hc⟩
      · rw [digitsValue_append, hv, hval]
        omega

theorem toDigits_spec (n : Nat) :
    Nat.toDigits 10 n ≠ [] ∧ (∀ c ∈ Nat.toDigits 10 n, IsDecimalDigit c) ∧
      digitsValue (Nat.toDigits 10 n) = n := by
  obtain ⟨l, hl, hne, hdig, hv⟩ := toDigitsCore_spec (n + 1) n [] (Nat.lt_succ_self n)
  rw [List.append_nil] at hl
  rw [Nat.toDigits, hl]
  exact ⟨hne, hdig, hv⟩

theorem stollSign_digit (c : Char) (r : List Char) (hminus : c ≠ '-') (hplus : c ≠ '+') :
    stollSign (c :: r) = (false, c :: r) := by
  unfold stollSign
  split
  · rename_i heq
    simp only [List.cons.injEq] at heq
    exact absurd heq.1 hminus
  · rename_i heq
    simp only [List.cons.injEq] at heq
    exact absurd heq.1 hplus
  · rfl

theorem takeWhile_digits (l : List Char) (hdig : ∀ c ∈ l, IsDecimalDigit c) :
    l.takeWhile Char.isDigit = l := by
  rw [List.takeWhile_eq_self_iff]
  intro x hx
  obtain ⟨j, hj, rfl⟩ := hdig x hx
  exact (digitChar_facts j hj).1

theorem stoll_digits (l : List Char) (hne : l ≠ []) (hdig : ∀ c ∈ l, IsDecimalDigit c)
    (hmax : digitsValue l ≤ 2 ^ 63 - 1) : stoll l = .ok (digitsValue l : Int) := by
  obtain ⟨c, r, rfl⟩ := List.exists_cons_of_ne_nil hne
  obtain ⟨k, hk, hc⟩ := hdig c (by simp)
  obtain ⟨_, _, hsp, hminus, hplus, _, _⟩ := digitChar_facts k hk
  rw [← hc] at hsp hminus hplus
  have hdw : (c :: r).dropWhile isspace = c :: r :=
    List.dropWhile_cons_of_neg (by simp [hsp])
  simp only [stoll, hdw, stollSign_digit c r hminus hplus, takeWhile_digits _ hdig]
  simp
  omega

theorem stoll_minus_digits (l : List Char) (hne : l ≠ []) (hdig : ∀ c ∈ l, IsDecimalDigit c)
    (hmax : digitsValue l ≤ 2 ^ 63) : stoll ('-' :: l) = .ok (- (digitsValue l : Int)) := by
  have hdw : ('-' :: l).dropWhile isspace = '-' :: l :=
    List.dropWhile_cons_of_neg (by decide)
  simp only [stoll, hdw, stollSign, takeWhile_digits _ hdig]
  simp [hne]
  omega

theorem stoll_to_string (t : Int) (hmin : - 2 ^ 63 ≤ t) (hmax : t ≤ 2 ^ 63 - 1) :
    stoll (to_string t).data = .ok t := by
  cases t with
  | ofNat n =>
    obtain ⟨hne, hdig, hv⟩ := toDigits_spec n
    have h := stoll_digits (Nat.toDigits 10 n) hne hdig (by rw [hv]; simp at hmax; omega)
    rw [hv] at h
    exact h
  | negSucc n =>
    obtain ⟨hne, hdig, hv⟩ := toDigits_spec (n + 1)
    have h := stoll_minus_digits (Nat.toDigits 10 (n + 1)) hne hdig
      (by rw [hv]; simp [Int.negSucc_eq] at hmin; omega)
    rw [hv] at h
    simp only [to_string]
    rw [h, Int.negSucc_eq]
    rfl

theorem to_string_chars (t : Int) (c : Char) (hc : c ∈ (to_string t).data) :
    c ≠ '&' ∧ c ≠ Char.ofNat 0 := by
  cases t with
  | ofNat n =>
    obtain ⟨k, hk, rfl⟩ := (toDigits_spec n).2.1 c hc
    exact ⟨(digitChar_facts k hk).2.2.2.2.2.1, (digitChar_facts k hk).2.2.2.2.2.2⟩
  | negSucc n =>
    simp only [to_string, List.mem_cons] at hc
    rcases hc with rfl | hc
    · exact ⟨by decide, by decide⟩
    · obtain ⟨k, hk, rfl⟩ := (toDigits_spec (n + 1)).2.1 c hc
      exact ⟨(digitChar_facts k hk).2.2.2.2.2.1, (digitChar_facts k hk).2.2.2.2.2.2⟩

theorem recMessage_of_no_zero (packet behind : List Char)
    (h : ∀ c ∈ packet, c ≠ Char.ofNat 0) : recMessage packet behind = packet := by
  unfold recMessage
  rw [List.takeWhile_append_of_pos (by simpa using h), List.take_left']
  rfl

theorem valPart_append (v w : List Char) (h : '&' ∉ v) : valPart (v ++ '&' :: w) = v := by
  unfold valPart
  rw [List.takeWhile_append_of_pos (fun c hc => by
    have : c ≠ '&' := fun he => h (he ▸ hc)
    simpa using this)]
  simp

theorem timePart_append (v w : List Char) (h : '&' ∉ v) : timePart (v ++ '&' :: w) = w := by
  unfold timePart
  rw [if_pos (by simp), List.dropWhile_append_of_pos (fun c hc => by
    have : c ≠ '&' := fun he => h (he ▸ hc)
    simpa using this)]
  simp

theorem lookupOrInsert_fst (m : List (Ipv4Address × Nat)) (a : Ipv4Address) :
    (lookupOrInsert m a).1 = (m.lookup a).getD 0 := by
  unfold lookupOrInsert
  cases m.lookup a <;> rfl

/-- C9 as amended: the receive handler parses the packet payload and appends it
to the output queue.  For every value `v` that contains no '&' and no zero
byte and every 64-bit integer `t`, receiving the payload `v`, '&', decimal `t`
(a packet whose size fits 32 bits) returns and appends exactly one record at
the end of the output queue: value `v`, time `t`, source the name of the node
`mapIpv4NodeId` gives for the address of the sender (node 0 for an address it
does not hold), destination the name of the node of the socket; the records
queued before are unchanged. -/
theorem receive_parses_payload (self : NS3Netsim) (now : Int) (node : Nat)
    (sender : Ipv4Address) (behind v : List Char) (t : Int)
    (hamp : '&' ∉ v) (hzero : Char.ofNat 0 ∉ v)
    (hmin : - 2 ^ 63 ≤ t) (hmax : t ≤ 2 ^ 63 - 1)
    (hsize : (v ++ '&' :: (to_string t).data).length < 2 ^ 32) :
    ∃ s, ExtractInformationFromPacketAndSendToUpperLayer self now
        ⟨node, sender, v ++ '&' :: (to_string t).data⟩ behind = .ok s ∧
      s.dataXchgOutput = self.dataXchgOutput ++
        [{ src := self.FindName ((self.mapIpv4NodeId.lookup sender).getD 0)
           dst := self.FindName node
           val := ⟨v⟩
           time := t }] := by
  have hnz : ∀ c ∈ v ++ '&' :: (to_string t).data, c ≠ Char.ofNat 0 := by
    intro c hc
    rw [List.mem_append, List.mem_cons] at hc
    rcases hc with hc | rfl | hc
    · exact fun he => hzero (he ▸ hc)
    · decide
    · exact (to_string_chars t c hc).2
  rw [handler_eq self now _ behind hsize]
  simp only [recMessage_of_no_zero _ behind hnz, timePart_append v _ hamp,
    stoll_to_string t hmin hmax]
  refine ⟨_, rfl, ?_⟩
  simp [receivedRecord, valPart_append v _ hamp, lookupOrInsert_fst, NS3Netsim.FindName]

/-- C9 as amended, at the value "21.5" and the time 10 received by node 1 from
the address of node "A". -/
theorem receive_parses_payload_witness :
    ('&' ∉ ['2', '1', '.', '5'] ∧ Char.ofNat 0 ∉ ['2', '1', '.', '5'] ∧
      (- 2 ^ 63 : Int) ≤ 10 ∧ (10 : Int) ≤ 2 ^ 63 - 1 ∧
      (['2', '1', '.', '5'] ++ '&' :: (to_string 10).data).length < 2 ^ 32) ∧
    ∃ s, ExtractInformationFromPacketAndSendToUpperLayer sampleFresh 0
        ⟨1, Ipv4Address.iface "A" 1, ['2', '1', '.', '5'] ++ '&' :: (to_string 10).data⟩ [] =
          .ok s ∧
      s.dataXchgOutput = sampleFresh.dataXchgOutput ++
        [{ src := sampleFresh.FindName
             ((sampleFresh.mapIpv4NodeId.lookup (Ipv4Address.iface "A" 1)).getD 0)
           dst := sampleFresh.FindName 1
           val := ⟨['2', '1', '.', '5']⟩
           time := 10 }] :=
  ⟨⟨by decide, by decide, by decide, by decide, by decide⟩,
    receive_parses_payload sampleFresh 0 1 (Ipv4Address.iface "A" 1) [] ['2', '1', '.', '5'] 10
      (by decide) (by decide) (by decide) (by decide) (by decide)⟩

/-! ## Facts about the lookup of schedule -/

theorem mem_created_serverList (s : NS3Netsim) (client server x : String) :
    x ∈ (created s client server).nodeServerList ↔ x ∈ s.nodeServerList ∨ x = server := by
  by_cases hs : server ∈ s.nodeServerList
  · simp only [created, hs, if_true]
    constructor
    · exact Or.inl
    · rintro (hx | rfl)
      · exact hx
      · exact hs
  · simp [created, hs, mem_sort]

theorem canCreate_linked {s : NS3Netsim} {client server : String}
    (h : s.canCreate client server = true) :
    ∃ dstNode, s.Find server = some dstNode ∧ s.hasInterface1 dstNode = true := by
  simp only [NS3Netsim.canCreate, Bool.and_eq_true] at h
  cases hf : s.Find server with
  | none => rw [hf] at h; simp at h
  | some dstNode =>
    rw [hf] at h
    exact ⟨dstNode, rfl, h.2⟩

theorem create_serversLinked {s s1 : NS3Netsim} {client server : String}
    (hl : ServersLinked s) (h : s.create client server = .ok s1) : ServersLinked s1 := by
  rcases create_ok_cases h with ⟨_, rfl⟩ | ⟨_, hcan, _, rfl⟩
  · exact hl
  · intro x hx
    rw [mem_created_serverList] at hx
    rcases hx with hx | rfl
    · exact hl x hx
    · exact canCreate_linked hcan

theorem createAll_serversLinked (calls : List (String × String)) :
    ∀ s s1 : NS3Netsim, ServersLinked s → s.createAll calls = .ok s1 → ServersLinked s1 := by
  induction calls with
  | nil =>
    intro s s1 hl h
    simp only [NS3Netsim.createAll, List.foldlM_nil, pure, Except.pure, Except.ok.injEq] at h
    rw [← h]
    exact hl
  | cons call calls ih =>
    intro s s1 hl h
    obtain ⟨s2, h2, h3⟩ := createAll_cons_ok h
    exact ih s2 s1 (create_serversLinked hl h2) h3

theorem init_new_serversLinked {m : List (List Nat)} {coords : List (List String)}
    {rate delay err : String} {verb : Int} {proto : String}
    {stod : String → Option StollError} {mk : List String → List (Ipv4Address × Nat)}
    {s : NS3Netsim}
    (h : NS3Netsim.new.init m coords rate delay err verb proto stod mk = .ok s) :
    ServersLinked s := by
  obtain ⟨_, _, hs⟩ := init_ok_fields h
  intro x hx
  rw [hs] at hx
  simp [NS3Netsim.new, sort_nil, unique_nil] at hx

end NS3Mosaik
